import Mathlib

/-!
Verification of the orchestration core of the mind-map generation pipeline
(backend/agents): the parallel part processor and aggregator
(graph_parallel.py), the sequential LangGraph state machine
(graph.py, nodes/gerador_node.py, nodes/revisor_node.py), the content
splitter (nodes/divisor_node.py) and the HTML extraction step
(nodes/parser_node.py).

Modelling conventions:
* External LLM calls are oracles: each call site consumes one environment
  response, which is either a normal value or an exception (any Python
  exception raised inside the corresponding `try` block).  For the
  generator, the oracle yields the artifact text after the Mermaid
  code-fence sanitisation (the sanitised string is never inspected by the
  orchestration logic, so the composite llm-call-plus-cleanup is one
  environment step).
* Python format strings that only render values into log/justification
  messages are embedded as tagged values (`Justificativa`), keeping the
  exact information content while avoiding float formatting semantics.
* Floats that are only copied, never computed with, are embedded as `ℚ`.
* Write-only telemetry (`state["logs"]`, logger calls) and the LLM
  provider configuration strings are not modelled: no control flow
  depends on them.
-/

/-- The `status` values of `MindmapState`.  The declared Python `Literal`
type has six values; `graph_parallel.py` additionally assigns the string
"parcial" outside that declared type, so it appears here as well. -/
inductive Status
  | parsing
  | dividindo
  | gerando
  | revisando
  | concluido
  | parcial
  | erro
deriving DecidableEq, Repr

/-- A problem reported by the reviewer (`Problema` pydantic model). -/
structure Problema where
  categoria : String
  gravidade : String
  descricao : String
  localizacao : String
deriving DecidableEq, Repr

/-- The reviewer verdict (`AvaliacaoMapa` pydantic model). -/
structure AvaliacaoMapa where
  aprovado : Bool
  nota_geral : ℚ
  problemas : List Problema
  sugestoes_melhoria : List String
  justificativa : String
deriving DecidableEq, Repr

/-- The `justificativa_revisao` strings built by the code, as tagged
values: one constructor per format string occurring in the source, with
the format arguments as constructor arguments. -/
inductive Justificativa
  | texto (s : String)
  | autoExaustaoParalelo (maxTentativas : ℕ) (notaOriginal : ℚ)
  | erroFinal (tentativas : ℕ) (msg : String)
  | autoExaustaoRevisor (maxTentativas : ℕ) (notaOriginal : ℚ) (numProblemas : ℕ)
  | autoErroRevisor (msg : String)
  | autoExaustaoGerador
deriving DecidableEq, Repr

/-- The result dict returned by `processar_parte_completa` (all three
return points build exactly these keys). -/
structure Resultado where
  parte_numero : ℕ
  parte_titulo : String
  mapa_gerado : String
  aprovado : Bool
  nota_geral : ℚ
  tentativas : ℕ
  problemas : List Problema
  sugestoes_melhoria : List String
  justificativa_revisao : Justificativa
deriving DecidableEq, Repr

/-- Environment response for one attempt of the parallel per-part loop:
either some call in the `try` block raised (`excecao`), or generation
produced a (sanitised) artifact and the structured reviewer returned a
verdict (`avaliada`).  A malformed reviewer reply raises inside
`with_structured_output`, hence is an `excecao`. -/
inductive RespostaTentativa
  | excecao (msg : String)
  | avaliada (mapa : String) (av : AvaliacaoMapa)
deriving DecidableEq, Repr

/-- Success return of `processar_parte_completa` (reviewer approved). -/
def resultadoAprovado (numero : ℕ) (titulo mapa : String) (tentativa : ℕ)
    (av : AvaliacaoMapa) : Resultado :=
  { parte_numero := numero
    parte_titulo := titulo
    mapa_gerado := mapa
    aprovado := true
    nota_geral := av.nota_geral
    tentativas := tentativa
    problemas := av.problemas
    sugestoes_melhoria := av.sugestoes_melhoria
    justificativa_revisao := .texto av.justificativa }

/-- Force-approved return of `processar_parte_completa` after the last
attempt was rejected. -/
def resultadoForcado (numero : ℕ) (titulo mapa : String)
    (maxTentativas tentativa : ℕ) (av : AvaliacaoMapa) : Resultado :=
  { parte_numero := numero
    parte_titulo := titulo
    mapa_gerado := mapa
    aprovado := true
    nota_geral := 5
    tentativas := tentativa
    problemas := av.problemas
    sugestoes_melhoria := av.sugestoes_melhoria
    justificativa_revisao := .autoExaustaoParalelo maxTentativas av.nota_geral }

/-- Error return of `processar_parte_completa` when the final attempt
raised. -/
def resultadoErro (numero : ℕ) (titulo : String) (tentativa : ℕ)
    (msg : String) : Resultado :=
  { parte_numero := numero
    parte_titulo := titulo
    mapa_gerado := ""
    aprovado := false
    nota_geral := 0
    tentativas := tentativa
    problemas := []
    sugestoes_melhoria := []
    justificativa_revisao := .erroFinal tentativa msg }

/-- The body of `for tentativa in range(1, max_tentativas + 1)` of
`processar_parte_completa`, recursing over the list of attempt numbers.
An empty list means the loop fell through, which in Python returns
`None`. -/
def tentativasLoop (ora : ℕ → RespostaTentativa) (numero : ℕ)
    (titulo : String) (maxTentativas : ℕ) : List ℕ → Option Resultado
  | [] => none
  | t :: resto =>
    match ora t with
    | .excecao msg =>
      if t = maxTentativas then
        some (resultadoErro numero titulo t msg)
      else
        tentativasLoop ora numero titulo maxTentativas resto
    | .avaliada mapa av =>
      if av.aprovado then
        some (resultadoAprovado numero titulo mapa t av)
      else if t < maxTentativas then
        tentativasLoop ora numero titulo maxTentativas resto
      else
        some (resultadoForcado numero titulo mapa maxTentativas t av)

/-- `processar_parte_completa` of graph_parallel.py: the generate,
review, retry loop for one part.  `parte_index` is the 0-based index
(`parte_numero = parte_index + 1`). -/
def processar_parte_completa (ora : ℕ → RespostaTentativa)
    (parte_index : ℕ) (titulo : String) (maxTentativas : ℕ) :
    Option Resultado :=
  tentativasLoop ora (parte_index + 1) titulo maxTentativas
    (List.range' 1 maxTentativas)

/-- An attempt outcome that does not end the loop early when it is not
the final attempt: an exception or a rejection. -/
def naoAprova : RespostaTentativa → Prop
  | .excecao _ => True
  | .avaliada _ av => av.aprovado = false

instance : DecidablePred naoAprova := by
  intro o
  cases o with
  | excecao m => exact isTrue trivial
  | avaliada m av => exact (inferInstance : Decidable (av.aprovado = false))

/-- One entry of `state["divisoes"]` as built by `dividir_conteudo_node`. -/
structure Divisao where
  numero : ℕ
  titulo : String
  conteudo : String
  estimativa_mapas : ℕ
deriving DecidableEq, Repr

/-- One entry of `state["partes_processadas"]` (see state.py).  The dict
appended by `gerar_mindmap_node` has no `sugestoes_melhoria` key until the
reviewer sets it; the empty list stands for the absent key. -/
structure ParteProcessada where
  parte_numero : ℕ
  parte_titulo : String
  mapa_gerado : String
  aprovado : Option Bool
  nota_geral : Option ℚ
  tentativas : ℕ
  problemas : List Problema
  sugestoes_melhoria : List String
  justificativa_revisao : Option Justificativa
deriving DecidableEq, Repr

/-- `MindmapState` of state.py.  The LLM provider strings and the
`logs` list are omitted: no orchestration decision reads them. -/
structure MindmapState where
  html_filename : String
  ramo_direito : String
  topico : String
  fundamentacao : String
  divisoes : List Divisao
  partes_processadas : List ParteProcessada
  tentativas_revisao : ℕ
  max_tentativas : ℕ
  status : Status
  erro_msg : Option String
deriving DecidableEq, Repr

/-- Python list indexing `l[i]`, including negative indices, as used on
`state["divisoes"]`; `none` is an `IndexError`. -/
def pyGet {α : Type} (l : List α) (i : ℤ) : Option α :=
  if 0 ≤ i then l[i.toNat]?
  else
    let j : ℤ := (l.length : ℤ) + i
    if 0 ≤ j then l[j.toNat]? else none

/-- In-place mutation of the last element, `state["partes_processadas"][-1][...] = ...`. -/
def atualizaUltima (l : List ParteProcessada)
    (f : ParteProcessada → ParteProcessada) : List ParteProcessada :=
  match l.getLast? with
  | none => l
  | some u => l.dropLast ++ [f u]

/-- Environment response of one generator call in the sequential graph
(`llm.ainvoke` in gerar_mindmap_node): the sanitised artifact, or any
exception raised inside the node's `try` block at or after the call. -/
inductive GenOutcome
  | ok (mapa : String)
  | exc (msg : String)
deriving DecidableEq, Repr

/-- Environment response of one reviewer call in the sequential graph
(`structured_llm.ainvoke` in revisar_mindmap_node): a structured verdict,
or any exception (service failure or malformed structured output). -/
inductive RevOutcome
  | ok (av : AvaliacaoMapa)
  | exc (msg : String)
deriving DecidableEq, Repr

/-- The truthiness test `p.get("aprovado")` on a processed part. -/
def ehAprovada (p : ParteProcessada) : Bool := p.aprovado = some true

/-- The dict appended for a new part in `gerar_mindmap_node`. -/
def novaParte (numero : ℕ) (titulo mapa : String) : ParteProcessada :=
  { parte_numero := numero
    parte_titulo := titulo
    mapa_gerado := mapa
    aprovado := none
    nota_geral := none
    tentativas := 1
    problemas := []
    sugestoes_melhoria := []
    justificativa_revisao := none }

/-- The tail of `gerar_mindmap_node` from `parte_atual = state["divisoes"][parte_index]`
onwards: division lookup, generator call, state update.  `idx` is
`parte_index`, `tent` the already-updated `tentativas_revisao`, `partes`
the already-updated `partes_processadas`.  The second component reports
which part index the generator was invoked for (`none` when the lookup
raised before the call). -/
def gerarChamada (g : GenOutcome) (s : MindmapState) (idx : ℤ)
    (isRetry : Bool) (tent : ℕ) (partes : List ParteProcessada) :
    MindmapState × Option ℤ :=
  match pyGet s.divisoes idx with
  | none =>
    ({ s with
        partes_processadas := partes
        tentativas_revisao := tent
        status := .erro
        erro_msg := some "Erro na geração: list index out of range" }, none)
  | some parteAtual =>
    match g with
    | .exc m =>
      ({ s with
          partes_processadas := partes
          tentativas_revisao := tent
          status := .erro
          erro_msg := some ("Erro na geração: " ++ m) }, some idx)
    | .ok mapa =>
      if isRetry then
        ({ s with
            partes_processadas := atualizaUltima partes fun p =>
              { p with mapa_gerado := mapa, tentativas := tent }
            tentativas_revisao := tent
            status := .revisando }, some idx)
      else
        ({ s with
            partes_processadas :=
              partes ++ [novaParte (idx.toNat + 1) parteAtual.titulo mapa]
            tentativas_revisao := tent
            status := .revisando }, some idx)

/-- `gerar_mindmap_node` of gerador_node.py, instrumented with the part
index the generator was called for. -/
def gerar_mindmap_core (g : GenOutcome) (s : MindmapState) :
    MindmapState × Option ℤ :=
  let nAprov := (s.partes_processadas.filter ehAprovada).length
  let total := s.divisoes.length
  if nAprov ≥ total then ({ s with status := .concluido }, none)
  else
    match s.partes_processadas.getLast? with
    | some u =>
      if u.aprovado = some true then
        gerarChamada g s (nAprov : ℤ) false 0 s.partes_processadas
      else
        let tent := s.tentativas_revisao + 1
        if tent > s.max_tentativas then
          let partes1 := atualizaUltima s.partes_processadas fun p =>
            { p with
                aprovado := some true
                nota_geral := some 5
                justificativa_revisao := some .autoExaustaoGerador }
          if nAprov ≥ total then
            ({ s with
                partes_processadas := partes1
                tentativas_revisao := 0
                status := .concluido }, none)
          else gerarChamada g s (nAprov : ℤ) false 0 partes1
        else gerarChamada g s ((u.parte_numero : ℤ) - 1) true tent
          s.partes_processadas
    | none => gerarChamada g s (nAprov : ℤ) false 0 s.partes_processadas

/-- `gerar_mindmap_node` as the graph node function. -/
def gerar_mindmap_node (g : GenOutcome) (s : MindmapState) : MindmapState :=
  (gerar_mindmap_core g s).1

/-- `revisar_mindmap_node` of revisor_node.py, instrumented with a flag
that is true exactly when the exhaustion force-approval branch ran.  The
`except` handler auto-approves the last part; a failing division lookup
(`state["divisoes"][parte_num - 1]`) raises before the reviewer call and
lands in the same handler. -/
def revisar_mindmap_core (r : RevOutcome) (s : MindmapState) :
    MindmapState × Bool :=
  match s.partes_processadas.getLast? with
  | none =>
    ({ s with
        status := .erro
        erro_msg := some "Nenhuma parte processada para revisão" }, false)
  | some u =>
    match pyGet s.divisoes ((u.parte_numero : ℤ) - 1) with
    | none =>
      ({ s with
          partes_processadas := atualizaUltima s.partes_processadas fun p =>
            { p with
                aprovado := some true
                nota_geral := some 5
                justificativa_revisao :=
                  some (.autoErroRevisor "list index out of range") }
          status := .gerando }, false)
    | some _ =>
      match r with
      | .exc m =>
        ({ s with
            partes_processadas := atualizaUltima s.partes_processadas fun p =>
              { p with
                  aprovado := some true
                  nota_geral := some 5
                  justificativa_revisao := some (.autoErroRevisor m) }
            status := .gerando }, false)
      | .ok av =>
        let partes1 := atualizaUltima s.partes_processadas fun p =>
          { p with
              aprovado := some av.aprovado
              nota_geral := some av.nota_geral
              problemas := av.problemas
              sugestoes_melhoria := av.sugestoes_melhoria
              justificativa_revisao := some (.texto av.justificativa) }
        if av.aprovado then
          ({ s with partes_processadas := partes1, status := .gerando }, false)
        else if s.tentativas_revisao ≥ s.max_tentativas then
          ({ s with
              partes_processadas := atualizaUltima partes1 fun p =>
                { p with
                    aprovado := some true
                    nota_geral := some 5
                    justificativa_revisao := some (.autoExaustaoRevisor
                      s.max_tentativas av.nota_geral av.problemas.length) }
              status := .gerando }, true)
        else
          ({ s with partes_processadas := partes1, status := .gerando }, false)

/-- `revisar_mindmap_node` as the graph node function. -/
def revisar_mindmap_node (r : RevOutcome) (s : MindmapState) : MindmapState :=
  (revisar_mindmap_core r s).1

/-- The conditional edge decisions of graph.py.  `gerar` is the string
"gerar_mindmap" (retry), `proximaParte` is "gerar_mindmap_loop" (next
part; both route to the generator node), `salvar` is "salvar_mindmap".
`crash` is the `IndexError` the decision function raises when
`partes_processadas` is empty, which aborts the graph run. -/
inductive Rota
  | gerar
  | proximaParte
  | salvar
  | crash
deriving DecidableEq, Repr

/-- `should_retry_or_continue` of graph.py. -/
def should_retry_or_continue (s : MindmapState) : Rota :=
  if s.tentativas_revisao ≥ s.max_tentativas then
    if s.partes_processadas.length < s.divisoes.length then .proximaParte
    else .salvar
  else
    match s.partes_processadas.getLast? with
    | none => .crash
    | some u =>
      if u.aprovado = some true then
        if s.partes_processadas.length < s.divisoes.length then .proximaParte
        else .salvar
      else .gerar

/-- Environment responses consumed by one pass of the sequential loop
(generator node then reviewer node). -/
structure PassoIn where
  ger : GenOutcome
  rev : RevOutcome
deriving DecidableEq, Repr

/-- Result of one pass of the sequential loop: next state, the route the
conditional edge picks, the generator's target part index, and whether
the reviewer force-approved at exhaustion. -/
structure PassoSaida where
  estado : MindmapState
  rota : Rota
  alvo : Option ℤ
  forcado : Bool
deriving Repr

/-- One pass of the sequential loop: edge gerar → revisar, then the
conditional edge. -/
def superstep (p : PassoIn) (s : MindmapState) : PassoSaida :=
  let g := gerar_mindmap_core p.ger s
  let r := revisar_mindmap_core p.rev g.1
  { estado := r.1
    rota := should_retry_or_continue r.1
    alvo := g.2
    forcado := r.2 }

/-- Runs the sequential loop from a state at the generator node, feeding
one `PassoIn` per pass, until the conditional edge leaves the loop (or
the inputs run out, `none`). -/
def rodarSeq : List PassoIn → MindmapState → MindmapState × Option Rota
  | [], s => (s, none)
  | p :: resto, s =>
    let q := superstep p s
    match q.rota with
    | .gerar => rodarSeq resto q.estado
    | .proximaParte => rodarSeq resto q.estado
    | .salvar => (q.estado, some .salvar)
    | .crash => (q.estado, some .crash)

/-- The state `dividir_conteudo_node` leaves behind on success, which is
where the generate/review loop starts. -/
def estadoAposDivisao (filename ramo topico fund : String)
    (divisoes : List Divisao) (maxT : ℕ) : MindmapState :=
  { html_filename := filename
    ramo_direito := ramo
    topico := topico
    fundamentacao := fund
    divisoes := divisoes
    partes_processadas := []
    tentativas_revisao := 0
    max_tentativas := maxT
    status := .gerando
    erro_msg := none }

/-- 0-based indices of the currently approved parts. -/
def indicesAprovadas (s : MindmapState) : List ℤ :=
  s.partes_processadas.enum.filterMap fun q =>
    if q.2.aprovado = some true then some (q.1 : ℤ) else none

/-- Per-pass check of claim C3 over a run of the sequential loop:
no generator call may target a part that was approved at any earlier
point, and the pass right after a reviewer force-approval (with the
approved count still below the part total) must not target the part just
force-approved.  `hist` accumulates ever-approved indices, `evitar` is
the index force-approved in the previous pass, if any. -/
def checkC3 : List PassoIn → MindmapState → List ℤ → Option ℤ → Bool
  | [], _, _, _ => true
  | p :: resto, s, hist, evitar =>
    let hist2 := hist ++ indicesAprovadas s
    let q := superstep p s
    let okAlvo := match q.alvo with
      | none => true
      | some i =>
        decide (i ∉ hist2) &&
          (match evitar with
           | none => true
           | some j => decide (i ≠ j))
    let evitar2 :=
      if q.forcado &&
          decide ((indicesAprovadas q.estado).length < s.divisoes.length) then
        some ((q.estado.partes_processadas.length : ℤ) - 1)
      else none
    okAlvo &&
      (match q.rota with
       | .gerar => checkC3 resto q.estado hist2 evitar2
       | .proximaParte => checkC3 resto q.estado hist2 evitar2
       | .salvar => true
       | .crash => true)

/-- Number of generator invocations for part index `i` along a run of
the sequential loop. -/
def contaChamadas : List PassoIn → MindmapState → ℤ → ℕ
  | [], _, _ => 0
  | p :: resto, s, i =>
    let q := superstep p s
    (if q.alvo = some i then 1 else 0) +
      (match q.rota with
       | .gerar => contaChamadas resto q.estado i
       | .proximaParte => contaChamadas resto q.estado i
       | .salvar => 0
       | .crash => 0)

/-- The part numbers of a result list, in order. -/
def numerosDe (l : List ParteProcessada) : List ℕ :=
  l.map fun p => p.parte_numero

/-- The part numbers form the contiguous sequence 1..k matching list
positions. -/
def numerosSequenciais (l : List ParteProcessada) : Prop :=
  numerosDe l = List.range' 1 l.length

/-- Every entry except possibly the last is approved. -/
def todasAprovadasMenosUltima (l : List ParteProcessada) : Prop :=
  ∀ p ∈ l.dropLast, p.aprovado = some true

/-- Invariant of the sequential loop at entry to the generator node:
part numbers are 1..k in order, all parts but the last are approved, at
most as many parts as divisions exist, and either there is room for a
new part (last approved, or no part yet) or the unapproved last part
still has retry budget. -/
def invariante (s : MindmapState) : Prop :=
  numerosSequenciais s.partes_processadas ∧
  todasAprovadasMenosUltima s.partes_processadas ∧
  s.partes_processadas.length ≤ s.divisoes.length ∧
  (match s.partes_processadas.getLast? with
   | none => s.partes_processadas.length < s.divisoes.length
   | some u =>
     (u.aprovado = some true ∧
       s.partes_processadas.length < s.divisoes.length) ∨
     (u.aprovado ≠ some true ∧
       s.tentativas_revisao < s.max_tentativas))

/-- Outcome of one part task as seen by `asyncio.gather` with
`return_exceptions=True` in `processar_partes_paralelo`: the returned
result dict, or the exception object. -/
inductive TarefaSaida
  | excecao (msg : String)
  | resultado (r : Resultado)
deriving DecidableEq, Repr

/-- A parallel result dict viewed as a `partes_processadas` entry. -/
def Resultado.paraParte (r : Resultado) : ParteProcessada :=
  { parte_numero := r.parte_numero
    parte_titulo := r.parte_titulo
    mapa_gerado := r.mapa_gerado
    aprovado := some r.aprovado
    nota_geral := some r.nota_geral
    tentativas := r.tentativas
    problemas := r.problemas
    sugestoes_melhoria := r.sugestoes_melhoria
    justificativa_revisao := some r.justificativa_revisao }

/-- The aggregation tail of `processar_partes_paralelo` (lines 265-298):
split gather results into dicts and exceptions, sort the dicts by part
number (Python `sorted` is a stable sort), set the document status and
error message. -/
def agregaResultados (saidas : List TarefaSaida) (s : MindmapState) :
    MindmapState :=
  let processadas : List Resultado := saidas.filterMap fun o =>
    match o with
    | .resultado r => some r
    | .excecao _ => none
  let comErro : List ℕ := saidas.enum.filterMap fun q =>
    match q.2 with
    | .excecao _ => some (q.1 + 1)
    | .resultado _ => none
  { s with
      partes_processadas :=
        (processadas.map Resultado.paraParte).mergeSort fun a b =>
          decide (a.parte_numero ≤ b.parte_numero)
      status := if comErro = [] then .concluido else .parcial
      erro_msg :=
        if comErro = [] then s.erro_msg
        else some ("Partes com erro: " ++ toString comErro) }

/-- Behaviour of one part task of `processar_partes_paralelo`: an
exception raised before the retry loop starts (e.g. in `get_llm`), which
escapes to `gather`, or a run of the retry loop driven by per-attempt
responses. -/
inductive ParteComportamento
  | excAntes (msg : String)
  | roda (ora : ℕ → RespostaTentativa)

/-- One part task as awaited by `gather`.  `none` is the task returning
Python `None` (only possible when `max_tentativas = 0`, where the `for`
loop of `processar_parte_completa` falls through). -/
def rodaTarefa (b : ParteComportamento) (idx : ℕ) (titulo : String)
    (maxT : ℕ) : Option TarefaSaida :=
  match b with
  | .excAntes m => some (.excecao m)
  | .roda ora => (processar_parte_completa ora idx titulo maxT).map .resultado

/-- `processar_partes_paralelo`: one task per division (in order), then
aggregation.  `none` models the `TypeError` the aggregation loop raises
when a task returned `None`. -/
def processar_partes_paralelo (bs : ℕ → ParteComportamento)
    (s : MindmapState) : Option MindmapState :=
  (s.divisoes.enum.mapM fun q =>
      rodaTarefa (bs q.1) q.1 q.2.titulo s.max_tentativas).map
    fun saidas => agregaResultados saidas s

/-- `ParteDivisao` pydantic model of divisor_node.py. -/
structure ParteDivisao where
  numero : ℕ
  titulo : String
  conteudo_completo : String
  estimativa_mapas : ℕ
deriving DecidableEq, Repr

/-- `DivisaoConteudo` pydantic model of divisor_node.py. -/
structure DivisaoConteudo where
  num_partes : ℕ
  justificativa : String
  partes : List ParteDivisao
deriving DecidableEq, Repr

/-- The pydantic `Field` bounds of `DivisaoConteudo`: responses outside
them fail validation and raise (the `none` case of the node input).
`numero` and the text fields carry no constraint. -/
def RespostaDivisaoValida (d : DivisaoConteudo) : Prop :=
  2 ≤ d.num_partes ∧ d.num_partes ≤ 10 ∧
    ∀ p ∈ d.partes, 1 ≤ p.estimativa_mapas ∧ p.estimativa_mapas ≤ 3

/-- `dividir_conteudo_node` of divisor_node.py.  `resp = none` is any
exception from the LLM call or pydantic validation.  The
`num_partes ≠ len(partes)` inconsistency only logs a warning; the
content check raises `ValueError` for the first part whose text is empty
or shorter than 50 characters (the error string is summarised, nothing
reads it). -/
def dividir_conteudo_node (resp : Option DivisaoConteudo)
    (s : MindmapState) : MindmapState :=
  match resp with
  | none =>
    { s with
        status := .erro
        erro_msg := some "Erro na divisão de conteúdo: falha do LLM01" }
  | some d =>
    if d.partes = [] then
      { s with
          status := .erro
          erro_msg :=
            some "Erro na divisão de conteúdo: LLM01 não retornou nenhuma parte na divisão" }
    else if d.partes.any fun p => decide (p.conteudo_completo.length < 50) then
      { s with
          status := .erro
          erro_msg :=
            some "Erro na divisão de conteúdo: parte não tem conteúdo adequado" }
    else
      { s with
          divisoes := d.partes.map fun p =>
            { numero := p.numero, titulo := p.titulo,
              conteudo := p.conteudo_completo,
              estimativa_mapas := p.estimativa_mapas }
          status := .gerando
          partes_processadas := [] }

/-- Environment of one `parse_html_node` run, one field per external
probe, in the order the code performs them: file existence, file
read/bs4 failures, the text of the `title` tag, the two regex matches on
the title (captured groups), and the normalised text of the
`fundamentacao` section. -/
structure ParseIn where
  arquivoExiste : Bool
  leituraErro : Option String
  titleTag : Option String
  matchPrincipal : Option (String × String)
  matchAlternativo : Option (String × String)
  fundamentacaoTexto : Option String
deriving DecidableEq, Repr

/-- `parse_html_node` of parser_node.py.  Every validation failure
raises before any state field is written; the handlers set only
`status` and `erro_msg` (messages summarised from the f-strings, all
nonempty). -/
def parse_html_node (inp : ParseIn) (s : MindmapState) : MindmapState :=
  if inp.arquivoExiste = false then
    { s with
        status := .erro
        erro_msg := some ("Arquivo não encontrado: " ++ s.html_filename) }
  else
    match inp.leituraErro with
    | some m =>
      { s with
          status := .erro
          erro_msg := some ("Erro ao processar HTML: " ++ m) }
    | none =>
      match inp.titleTag with
      | none =>
        { s with
            status := .erro
            erro_msg := some "Tag title não encontrada no HTML" }
      | some _ =>
        match inp.matchPrincipal.orElse fun _ => inp.matchAlternativo with
        | none =>
          { s with
              status := .erro
              erro_msg := some "Title não segue o padrão esperado" }
        | some g =>
          match inp.fundamentacaoTexto with
          | none =>
            { s with
                status := .erro
                erro_msg :=
                  some "Section com id fundamentacao não encontrada no HTML" }
          | some fund =>
            if fund.length < 100 then
              { s with
                  status := .erro
                  erro_msg := some "Fundamentação muito curta" }
            else
              { s with
                  ramo_direito := g.1.trim
                  topico := g.2.trim
                  fundamentacao := fund
                  status := .dividindo }

/-- The extraction failure conditions enumerated by parser_node.py:
missing file, read/parse failure, missing title tag, title matching
neither pattern, missing fundamentacao section, or fundamentacao text
below 100 characters. -/
def falhaParse (inp : ParseIn) : Prop :=
  inp.arquivoExiste = false ∨ inp.leituraErro ≠ none ∨
    inp.titleTag = none ∨
    (inp.matchPrincipal = none ∧ inp.matchAlternativo = none) ∨
    inp.fundamentacaoTexto = none ∨
    ∃ f, inp.fundamentacaoTexto = some f ∧ f.length < 100

/-- Persistence outcome of `salvar_mindmap_node`. -/
inductive SalvarOutcome
  | ok
  | excecao (msg : String)
deriving DecidableEq, Repr

/-- `salvar_mindmap_node` of salvar_node.py: on success the status is
set to `concluido` unconditionally (even over a `parcial` status). -/
def salvar_mindmap_node (o : SalvarOutcome) (s : MindmapState) :
    MindmapState :=
  match o with
  | .ok => { s with status := .concluido }
  | .excecao m => { s with status := .erro, erro_msg := some m }

/-- The initial state built by `execute_graph_parallel`. -/
def estadoInicial (filename : String) (maxT : ℕ) : MindmapState :=
  { html_filename := filename
    ramo_direito := ""
    topico := ""
    fundamentacao := ""
    divisoes := []
    partes_processadas := []
    tentativas_revisao := 0
    max_tentativas := maxT
    status := .parsing
    erro_msg := none }

/-- Environment of one whole-document run of `execute_graph_parallel`. -/
structure DocComportamento where
  parseIn : ParseIn
  divisorResp : Option DivisaoConteudo
  partes : ℕ → ParteComportamento
  salvarRes : SalvarOutcome
  maxTentativas : ℕ

/-- `execute_graph_parallel` of graph_parallel.py: parse → divide →
parallel part processing → save, returning early with the error state
when a stage reports `erro` (the raise-and-catch of the original sets
the same status and message again).  A `parcial` status from the part
stage does not stop the save stage. -/
def execute_graph_parallel (filename : String) (b : DocComportamento) :
    MindmapState :=
  let s1 := parse_html_node b.parseIn (estadoInicial filename b.maxTentativas)
  if s1.status = .erro then s1
  else
    let s2 := dividir_conteudo_node b.divisorResp s1
    if s2.status = .erro then s2
    else
      match processar_partes_paralelo b.partes s2 with
      | none =>
        { s2 with
            status := .erro
            erro_msg := some "TypeError na agregação de resultados" }
      | some s3 =>
        if s3.status = .erro then s3
        else salvar_mindmap_node b.salvarRes s3

/-- `processar_multiplos_htmls_paralelo` of graph_parallel.py:
`asyncio.gather` over one `execute_graph_parallel` task per file, with
`return_exceptions=True`; gather returns results positionally.
`execute_graph_parallel` catches every exception internally, so each
slot holds a final state. -/
def processar_multiplos_htmls_paralelo (arquivos : List String)
    (bs : ℕ → DocComportamento) : List MindmapState :=
  arquivos.enum.map fun q => execute_graph_parallel q.2 (bs q.1)

/-- Concrete division: part 1. -/
def divisaoA : Divisao := ⟨1, "Parte A", "conteudo a", 1⟩

/-- Concrete division: part 2. -/
def divisaoB : Divisao := ⟨2, "Parte B", "conteudo b", 1⟩

/-- A reviewer verdict that rejects. -/
def avaliacaoRejeita : AvaliacaoMapa := ⟨false, 2, [], [], "insuficiente"⟩

/-- A reviewer verdict that approves. -/
def avaliacaoAprova : AvaliacaoMapa := ⟨true, 8, [], [], "bom"⟩

/-- An environment that rejects every attempt and never raises. -/
def oraSempreRejeita : ℕ → RespostaTentativa :=
  fun _ => .avaliada "mapa" avaliacaoRejeita

/-- An environment that raises on every attempt. -/
def oraSempreExcecao : ℕ → RespostaTentativa :=
  fun _ => .excecao "falha de servico"

/-- An environment that approves on every attempt. -/
def oraSempreAprova : ℕ → RespostaTentativa :=
  fun _ => .avaliada "mapa" avaliacaoAprova

/-- Two-part document state at the generator node with `max_tentativas = 1`. -/
def estadoDuasPartes : MindmapState :=
  estadoAposDivisao "doc.html" "ramo" "topico" "fund" [divisaoA, divisaoB] 1

/-- One-part document state at the generator node with `max_tentativas = 1`. -/
def estadoUmaParte : MindmapState :=
  estadoAposDivisao "doc.html" "ramo" "topico" "fund" [divisaoA] 1

/-- Sequential pass: generation succeeds, reviewer rejects. -/
def passoRejeita : PassoIn := ⟨.ok "m1", .ok avaliacaoRejeita⟩

/-- Sequential pass: generation succeeds with another artifact, reviewer rejects. -/
def passoRejeita2 : PassoIn := ⟨.ok "m2", .ok avaliacaoRejeita⟩

/-- Sequential pass: the generator raises, the reviewer then rejects
whatever part it finds last. -/
def passoExcecaoGerador : PassoIn := ⟨.exc "boom", .ok avaliacaoRejeita⟩

/-- Sequential pass: generation succeeds, reviewer approves. -/
def passoAprova : PassoIn := ⟨.ok "m3", .ok avaliacaoAprova⟩

/-- Parallel part behaviours where task 0 raises before its retry loop
and every other task approves at once. -/
def comportamentoC4 : ℕ → ParteComportamento :=
  fun i => if i = 0 then .excAntes "boom" else .roda oraSempreAprova

/-- A reachable sequential state: after one rejected pass on a two-part
document with `max_tentativas = 3`, the generator has just regenerated
part 1 (attempt counter 1, below the maximum), and the reviewer is about
to run. -/
def estadoC7 : MindmapState :=
  gerar_mindmap_node (.ok "m2")
    (superstep passoRejeita
      (estadoAposDivisao "doc.html" "ramo" "topico" "fund"
        [divisaoA, divisaoB] 3)).estado

/-- A 50-character part content (the minimum the splitter accepts). -/
def conteudo50 : String := "aaaaaaaaaaaaaaaaaaaaaaaaaaaaaaaaaaaaaaaaaaaaaaaaaa"

/-- A division response that passes every pydantic constraint but whose
part numbers are 5 and 9 rather than 1 and 2. -/
def respostaDivisaoX : DivisaoConteudo :=
  ⟨2, "tematica", [⟨5, "t1", conteudo50, 1⟩, ⟨9, "t2", conteudo50, 2⟩]⟩

theorem getLast?_cons_ne (a : ℕ) (l : List ℕ) (h : l ≠ []) :
    (a :: l).getLast? = l.getLast? := by
  cases l with
  | nil => exact absurd rfl h
  | cons b m => exact List.getLast?_cons_cons

/-- Helper: the attempt loop returns a result whenever the attempt list
is nonempty, ends at `maxTentativas`, and contains only attempt numbers
at most `maxTentativas`; the result records at most `maxTentativas`
attempts and the given part number. -/
theorem tentativasLoop_total (ora : ℕ → RespostaTentativa) (numero : ℕ)
    (titulo : String) (maxTentativas : ℕ) :
    ∀ l : List ℕ, l ≠ [] → (∀ t ∈ l, t ≤ maxTentativas) →
      l.getLast? = some maxTentativas →
      ∃ r : Resultado,
        tentativasLoop ora numero titulo maxTentativas l = some r ∧
          r.tentativas ≤ maxTentativas ∧ r.parte_numero = numero := by
  intro l
  induction l with
  | nil => intro h; exact absurd rfl h
  | cons t resto ih =>
    intro _ hmem hlast
    have ht : t ≤ maxTentativas := hmem t (List.mem_cons_self t resto)
    by_cases hres : resto = []
    · subst hres
      have : t = maxTentativas := by
        simpa using hlast
      subst this
      cases hora : ora t with
      | excecao msg =>
        refine ⟨resultadoErro numero titulo t msg, ?_, le_refl _, rfl⟩
        simp [tentativasLoop, hora]
      | avaliada mapa av =>
        by_cases hap : av.aprovado
        · refine ⟨resultadoAprovado numero titulo mapa t av, ?_, le_refl _, rfl⟩
          simp [tentativasLoop, hora, hap, resultadoAprovado]
        · refine ⟨resultadoForcado numero titulo mapa t t av, ?_, le_refl _, rfl⟩
          simp [tentativasLoop, hora, hap, resultadoForcado]
    · have hlast' : resto.getLast? = some maxTentativas := by
        rw [getLast?_cons_ne t resto hres] at hlast
        exact hlast
      have hmem' : ∀ u ∈ resto, u ≤ maxTentativas := by
        intro u hu
        exact hmem u (List.mem_cons_of_mem t hu)
      obtain ⟨r, hr, hrt, hrn⟩ := ih hres hmem' hlast'
      cases hora : ora t with
      | excecao msg =>
        by_cases hEq : t = maxTentativas
        · subst hEq
          refine ⟨resultadoErro numero titulo t msg, ?_, le_refl _, rfl⟩
          simp [tentativasLoop, hora]
        · refine ⟨r, ?_, hrt, hrn⟩
          simp [tentativasLoop, hora, hEq, hr]
      | avaliada mapa av =>
        by_cases hap : av.aprovado
        · refine ⟨resultadoAprovado numero titulo mapa t av, ?_, ht, rfl⟩
          simp [tentativasLoop, hora, hap, resultadoAprovado]
        · by_cases hlt : t < maxTentativas
          · refine ⟨r, ?_, hrt, hrn⟩
            simp [tentativasLoop, hora, hap, hlt, hr]
          · have : t = maxTentativas := le_antisymm ht (not_lt.mp hlt)
            subst this
            refine ⟨resultadoForcado numero titulo mapa t t av, ?_, le_refl _, rfl⟩
            simp [tentativasLoop, hora, hap, hlt, resultadoForcado]

/-- Helper: the attempt list `range' 1 n` ends at `n` when `n ≥ 1`. -/
theorem range'_getLast (n : ℕ) (h : 1 ≤ n) :
    (List.range' 1 n).getLast? = some n := by
  obtain ⟨m, hm⟩ := Nat.exists_eq_add_of_le h
  subst hm
  rw [Nat.add_comm 1 m, List.range'_concat]
  simp [List.getLast?_concat, Nat.add_comm]

/-- Helper: the last element of a nonempty `atualizaUltima` result is
the updated former last element. -/
theorem atualizaUltima_getLast? (l : List ParteProcessada)
    (f : ParteProcessada → ParteProcessada) (u : ParteProcessada)
    (h : l.getLast? = some u) :
    (atualizaUltima l f).getLast? = some (f u) := by
  simp [atualizaUltima, h, List.getLast?_concat]

/-- Claim C1 (amended): in parallel mode, for every part, every attempt
bound of at least one, and every behaviour of the generation and
evaluation capabilities — approval, rejection or exception on any
attempt — `processar_parte_completa` returns a result, using at most
`max_tentativas` attempts, numbered for its part.  (The claim as stated,
which also covers the sequential generator node, is refuted by
`C1_contra`: there a part receives `max_tentativas + 1` generation
calls.) -/
theorem C1_teorema (ora : ℕ → RespostaTentativa) (idx : ℕ) (tit : String)
    (maxT : ℕ) (h : 1 ≤ maxT) :
    ∃ r : Resultado,
      processar_parte_completa ora idx tit maxT = some r ∧
        r.tentativas ≤ maxT ∧ r.parte_numero = idx + 1 := by
  have hne : List.range' 1 maxT ≠ [] := by
    rw [List.range'_ne_nil]
    omega
  have hmem : ∀ t ∈ List.range' 1 maxT, t ≤ maxT := by
    intro t ht
    rw [List.mem_range'_1] at ht
    omega
  exact tentativasLoop_total ora (idx + 1) tit maxT _ hne hmem
    (range'_getLast maxT h)

/-- Witness for C1: the termination theorem applied to the concrete
always-rejecting environment with three attempts. -/
theorem C1_testemunha :
    ∃ r : Resultado,
      processar_parte_completa oraSempreRejeita 0 "titulo" 3 = some r ∧
        r.tentativas ≤ 3 ∧ r.parte_numero = 0 + 1 :=
  C1_teorema oraSempreRejeita 0 "titulo" 3 (by omega)

/-- Claim C5: with `max_tentativas = 3` and an evaluator that rejects
every attempt and never raises, the part processor performs exactly 3
attempts and returns the force-approved result: `aprovado = true`,
`tentativas = 3`, score 5, and the auto-approval note carrying the
original score. -/
theorem C5_teorema (ora : ℕ → RespostaTentativa) (idx : ℕ) (tit : String)
    (h : ∀ t, ∃ m av, ora t = .avaliada m av ∧ av.aprovado = false) :
    ∃ m av, ora 3 = .avaliada m av ∧
      processar_parte_completa ora idx tit 3 =
        some (resultadoForcado (idx + 1) tit m 3 3 av) := by
  obtain ⟨m1, av1, h1, r1⟩ := h 1
  obtain ⟨m2, av2, h2, r2⟩ := h 2
  obtain ⟨m3, av3, h3, r3⟩ := h 3
  refine ⟨m3, av3, h3, ?_⟩
  show tentativasLoop ora (idx + 1) tit 3 (List.range' 1 3) = _
  have hr : List.range' 1 3 = [1, 2, 3] := rfl
  rw [hr]
  simp [tentativasLoop, h1, h2, h3, r1, r2, r3]

/-- Witness for C5: the always-rejecting environment. -/
theorem C5_testemunha :
    ∃ m av, oraSempreRejeita 3 = .avaliada m av ∧
      processar_parte_completa oraSempreRejeita 0 "titulo" 3 =
        some (resultadoForcado (0 + 1) "titulo" m 3 3 av) :=
  C5_teorema oraSempreRejeita 0 "titulo"
    (fun _ => ⟨"mapa", avaliacaoRejeita, rfl, rfl⟩)

/-- Helper: when every attempt before the last neither approves nor
returns early and the final attempt raises, the loop returns the error
result. -/
theorem tentativasLoop_erro_final (ora : ℕ → RespostaTentativa) (n : ℕ)
    (tit : String) (maxT : ℕ) (msg : String)
    (hexc : ora maxT = .excecao msg)
    (hna : ∀ t, 1 ≤ t → t < maxT → naoAprova (ora t)) :
    ∀ l : List ℕ, l ≠ [] → l.getLast? = some maxT →
      (∀ t ∈ l.dropLast, 1 ≤ t ∧ t < maxT) →
      tentativasLoop ora n tit maxT l = some (resultadoErro n tit maxT msg) := by
  intro l
  induction l with
  | nil => intro h; exact absurd rfl h
  | cons t resto ih =>
    intro _ hlast hdrop
    by_cases hres : resto = []
    · subst hres
      have ht : t = maxT := by simpa using hlast
      subst ht
      simp [tentativasLoop, hexc]
    · have hlast' : resto.getLast? = some maxT := by
        rw [getLast?_cons_ne t resto hres] at hlast
        exact hlast
      rw [List.dropLast_cons_of_ne_nil hres] at hdrop
      have htb := hdrop t (List.mem_cons_self t _)
      have hdrop' : ∀ u ∈ resto.dropLast, 1 ≤ u ∧ u < maxT := fun u hu =>
        hdrop u (List.mem_cons_of_mem t hu)
      have hna_t := hna t htb.1 htb.2
      have hne : t ≠ maxT := Nat.ne_of_lt htb.2
      cases hora : ora t with
      | excecao m2 =>
        simp [tentativasLoop, hora, hne, ih hres hlast' hdrop']
      | avaliada mp av =>
        have hav : av.aprovado = false := by
          rw [hora] at hna_t
          simpa [naoAprova] using hna_t
        simp [tentativasLoop, hora, hav, htb.2, ih hres hlast' hdrop']

/-- Helper: the only way the loop returns a non-approved result is the
final-attempt exception, and the result is then the error result. -/
theorem tentativasLoop_reprovado (ora : ℕ → RespostaTentativa) (n : ℕ)
    (tit : String) (maxT : ℕ) :
    ∀ (l : List ℕ) (r : Resultado),
      tentativasLoop ora n tit maxT l = some r → r.aprovado = false →
      ∃ msg, ora maxT = .excecao msg ∧ r = resultadoErro n tit maxT msg := by
  intro l
  induction l with
  | nil =>
    intro r h
    exact absurd h (by simp [tentativasLoop])
  | cons t resto ih =>
    intro r h hr
    cases hora : ora t with
    | excecao m =>
      simp only [tentativasLoop, hora] at h
      by_cases hEq : t = maxT
      · subst hEq
        rw [if_pos rfl] at h
        have hinj := Option.some.inj h
        exact ⟨m, hora, hinj.symm⟩
      · rw [if_neg hEq] at h
        exact ih r h hr
    | avaliada mp av =>
      simp only [tentativasLoop, hora] at h
      by_cases hap : av.aprovado
      · rw [if_pos hap] at h
        have hinj := Option.some.inj h
        rw [← hinj] at hr
        simp [resultadoAprovado] at hr
      · rw [if_neg hap] at h
        by_cases hlt : t < maxT
        · rw [if_pos hlt] at h
          exact ih r h hr
        · rw [if_neg hlt] at h
          have hinj := Option.some.inj h
          rw [← hinj] at hr
          simp [resultadoForcado] at hr

/-- Claim C6: if every attempt before the last neither approves nor
returns early and the generation or evaluation call raises on the final
attempt, the part finalizes with `aprovado = false`, an empty artifact,
score 0, and the error text in the rationale; and conversely this is
the only case in which a returned result is not approved. -/
theorem C6_teorema :
    (∀ (ora : ℕ → RespostaTentativa) (idx : ℕ) (tit : String)
      (maxT : ℕ) (msg : String), 1 ≤ maxT →
      (∀ t, 1 ≤ t → t < maxT → naoAprova (ora t)) →
      ora maxT = .excecao msg →
      processar_parte_completa ora idx tit maxT =
        some (resultadoErro (idx + 1) tit maxT msg))
    ∧ ∀ (ora : ℕ → RespostaTentativa) (idx : ℕ) (tit : String)
      (maxT : ℕ) (r : Resultado),
      processar_parte_completa ora idx tit maxT = some r →
      r.aprovado = false →
      ∃ msg, ora maxT = .excecao msg ∧ r = resultadoErro (idx + 1) tit maxT msg := by
  constructor
  · intro ora idx tit maxT msg hm hna hexc
    have hne : List.range' 1 maxT ≠ [] := by
      rw [List.range'_ne_nil]
      omega
    have hdrop : ∀ t ∈ (List.range' 1 maxT).dropLast, 1 ≤ t ∧ t < maxT := by
      obtain ⟨k, hk⟩ := Nat.exists_eq_add_of_le hm
      subst hk
      rw [Nat.add_comm 1 k, List.range'_concat, List.dropLast_concat]
      intro t ht
      rw [List.mem_range'_1] at ht
      omega
    exact tentativasLoop_erro_final ora (idx + 1) tit maxT msg hexc hna _
      hne (range'_getLast maxT hm) hdrop
  · intro ora idx tit maxT r h hr
    exact tentativasLoop_reprovado ora (idx + 1) tit maxT _ r h hr

/-- Witness for C6: the always-raising environment with one attempt. -/
theorem C6_testemunha :
    processar_parte_completa oraSempreExcecao 0 "titulo" 1 =
      some (resultadoErro (0 + 1) "titulo" 1 "falha de servico")
    ∧ ∃ msg, oraSempreExcecao 1 = .excecao msg ∧
        resultadoErro (0 + 1) "titulo" 1 "falha de servico" =
          resultadoErro (0 + 1) "titulo" 1 msg := by
  have h1 := C6_teorema.1 oraSempreExcecao 0 "titulo" 1 "falha de servico"
    (by omega) (fun t ha hb => absurd hb (by omega)) rfl
  exact ⟨h1, C6_teorema.2 oraSempreExcecao 0 "titulo" 1 _ h1 rfl⟩

/-- Helper: on a non-final attempt, an exception and a rejection drive
the loop identically — swapping one for the other at attempt `k` leaves
the outcome unchanged. -/
theorem tentativasLoop_troca (ora1 ora2 : ℕ → RespostaTentativa)
    (k maxT : ℕ) (hk : k < maxT)
    (hagree : ∀ t, t ≠ k → ora1 t = ora2 t)
    (h1 : naoAprova (ora1 k)) (h2 : naoAprova (ora2 k))
    (n : ℕ) (tit : String) :
    ∀ l : List ℕ,
      tentativasLoop ora1 n tit maxT l = tentativasLoop ora2 n tit maxT l := by
  intro l
  induction l with
  | nil => rfl
  | cons t resto ih =>
    by_cases ht : t = k
    · subst ht
      have hne : t ≠ maxT := Nat.ne_of_lt hk
      cases ho1 : ora1 t with
      | excecao m =>
        cases ho2 : ora2 t with
        | excecao m2 => simp [tentativasLoop, ho1, ho2, hne, ih]
        | avaliada mp av =>
          have hav : av.aprovado = false := by
            rw [ho2] at h2
            simpa [naoAprova] using h2
          simp [tentativasLoop, ho1, ho2, hne, hav, hk, ih]
      | avaliada mp av =>
        have hav : av.aprovado = false := by
          rw [ho1] at h1
          simpa [naoAprova] using h1
        cases ho2 : ora2 t with
        | excecao m2 => simp [tentativasLoop, ho1, ho2, hne, hav, hk, ih]
        | avaliada mp2 av2 =>
          have hav2 : av2.aprovado = false := by
            rw [ho2] at h2
            simpa [naoAprova] using h2
          simp [tentativasLoop, ho1, ho2, hav, hav2, hk, ih]
    · simp only [tentativasLoop, hagree t ht]
      cases ho : ora2 t with
      | excecao m => simp [ho, ih]
      | avaliada mp av => simp [ho, ih]

/-- Claim C7 (amended): in the parallel part processor, a generation or
evaluation failure (including a malformed verdict) on a non-final
attempt is interchangeable with a rejection — the loop retries and the
final outcome is identical.  In the sequential reviewer node, however, a
failure auto-approves the current part immediately (it does not feed the
retry policy); the claim as stated is refuted at `C7_contra`. -/
theorem C7_teorema :
    (∀ (k maxT : ℕ) (ora1 ora2 : ℕ → RespostaTentativa) (idx : ℕ)
      (tit : String), 1 ≤ k → k < maxT →
      (∀ t, t ≠ k → ora1 t = ora2 t) →
      naoAprova (ora1 k) → naoAprova (ora2 k) →
      processar_parte_completa ora1 idx tit maxT =
        processar_parte_completa ora2 idx tit maxT)
    ∧ ∀ (s : MindmapState) (m : String), s.partes_processadas ≠ [] →
      (revisar_mindmap_node (.exc m) s).status = .gerando ∧
      ∃ u, (revisar_mindmap_node (.exc m) s).partes_processadas.getLast? =
          some u ∧ u.aprovado = some true := by
  constructor
  · intro k maxT ora1 ora2 idx tit _ hk hagree h1 h2
    exact tentativasLoop_troca ora1 ora2 k maxT hk hagree h1 h2 (idx + 1)
      tit (List.range' 1 maxT)
  · intro s m hne
    have hu : s.partes_processadas.getLast? =
        some (s.partes_processadas.getLast hne) :=
      List.getLast?_eq_getLast s.partes_processadas hne
    rw [revisar_mindmap_node, revisar_mindmap_core]
    split
    · next heq => rw [hu] at heq; exact Option.noConfusion heq
    · next u heq =>
      split
      · exact ⟨rfl, _, atualizaUltima_getLast? _ _ u heq, rfl⟩
      · exact ⟨rfl, _, atualizaUltima_getLast? _ _ u heq, rfl⟩

/-- Witness for C7: swapping attempt 1 of 3 between an exception and a
rejection leaves the parallel outcome unchanged, and the sequential
reviewer auto-approves the pending part of `estadoC7` on a failure. -/
theorem C7_testemunha :
    processar_parte_completa
        (fun t => if t = 1 then .excecao "falha" else oraSempreRejeita t)
        0 "titulo" 3 =
      processar_parte_completa oraSempreRejeita 0 "titulo" 3
    ∧ ((revisar_mindmap_node (.exc "falha") estadoC7).status = .gerando ∧
      ∃ u, (revisar_mindmap_node (.exc "falha")
            estadoC7).partes_processadas.getLast? = some u ∧
          u.aprovado = some true) := by
  constructor
  · exact C7_teorema.1 1 3
      (fun t => if t = 1 then .excecao "falha" else oraSempreRejeita t)
      oraSempreRejeita 0 "titulo" (by omega) (by omega)
      (fun t ht => by simp [ht]) (by simp [naoAprova]) (by decide)
  · exact C7_teorema.2 estadoC7 "falha" (by decide)

/-- Helper: a string with a nonempty prefix is nonempty. -/
theorem append_ne_vazio (a b : String) (ha : a.length ≠ 0) : a ++ b ≠ "" := by
  intro h
  have h2 := congrArg String.length h
  rw [String.length_append] at h2
  have h3 : ("" : String).length = 0 := rfl
  omega

/-- Helper: the error-index list of the aggregation is empty exactly
when no gather outcome is an exception, for any enumeration start. -/
theorem comErro_vazio (saidas : List TarefaSaida) :
    ∀ n : ℕ,
      (List.enumFrom n saidas).filterMap (fun q =>
        match q.2 with
        | TarefaSaida.excecao _ => some (q.1 + 1)
        | TarefaSaida.resultado _ => none) = [] ↔
      ∀ o ∈ saidas, ∀ m, o ≠ TarefaSaida.excecao m := by
  induction saidas with
  | nil => intro n; simp
  | cons a resto ih =>
    intro n
    cases a with
    | excecao m =>
      constructor
      · intro h
        exfalso
        simp [List.enumFrom_cons, List.filterMap_cons] at h
      · intro h
        exact absurd rfl (h (.excecao m) (List.mem_cons_self _ _) m)
    | resultado r =>
      constructor
      · intro h o ho m2
        rcases List.mem_cons.mp ho with h1 | h2
        · subst h1
          intro hEq
          exact TarefaSaida.noConfusion hEq
        · have h3 : (List.enumFrom (n + 1) resto).filterMap (fun q =>
              match q.2 with
              | TarefaSaida.excecao _ => some (q.1 + 1)
              | TarefaSaida.resultado _ => none) = [] := by
            simpa [List.enumFrom_cons, List.filterMap_cons] using h
          exact (ih (n + 1)).mp h3 o h2 m2
      · intro h
        simp only [List.enumFrom_cons, List.filterMap_cons]
        exact (ih (n + 1)).mpr fun o ho m2 => h o (List.mem_cons_of_mem _ ho) m2

/-- Claim C2 (amended): after the parallel per-part tasks complete, the
document status is `concluido` exactly when no task raised an exception
that escaped to `gather`, and `parcial` exactly when some task did;
part-level aggregation never yields the `erro` status.  A result dict
returned with `aprovado = false` (final-attempt error inside the retry
loop) still counts towards `concluido` — the claim as stated, which
demands `parcial` in that case, is refuted at `C2_contra`. -/
theorem C2_teorema (saidas : List TarefaSaida) (s : MindmapState) :
    ((agregaResultados saidas s).status = .concluido ↔
      ∀ o ∈ saidas, ∀ m, o ≠ TarefaSaida.excecao m)
    ∧ ((agregaResultados saidas s).status = .parcial ↔
      ∃ o ∈ saidas, ∃ m, o = TarefaSaida.excecao m)
    ∧ (agregaResultados saidas s).status ≠ .erro := by
  have henum : saidas.enum = List.enumFrom 0 saidas := rfl
  have hbridge := comErro_vazio saidas 0
  by_cases hc : (List.enumFrom 0 saidas).filterMap (fun q =>
      match q.2 with
      | TarefaSaida.excecao _ => some (q.1 + 1)
      | TarefaSaida.resultado _ => none) = []
  · have hs : (agregaResultados saidas s).status = .concluido := by
      simp [agregaResultados, henum, hc]
    refine ⟨⟨fun _ => hbridge.mp hc, fun _ => hs⟩, ⟨?_, ?_⟩, ?_⟩
    · rw [hs]
      intro hEq
      exact Status.noConfusion hEq
    · rintro ⟨o, ho, m, rfl⟩
      exact absurd rfl (hbridge.mp hc _ ho m)
    · rw [hs]
      intro hEq
      exact Status.noConfusion hEq
  · have hs : (agregaResultados saidas s).status = .parcial := by
      simp [agregaResultados, henum, hc]
    have hex : ∃ o ∈ saidas, ∃ m, o = TarefaSaida.excecao m := by
      by_contra hno
      push_neg at hno
      exact hc (hbridge.mpr fun o ho m hEq => hno o ho m hEq)
    refine ⟨⟨?_, ?_⟩, ⟨fun _ => hex, fun _ => hs⟩, ?_⟩
    · rw [hs]
      intro hEq
      exact Status.noConfusion hEq
    · intro hall
      exact absurd (hbridge.mpr hall) hc
    · rw [hs]
      intro hEq
      exact Status.noConfusion hEq

/-- Claim C8 (amended): whenever the splitter succeeds, it produced at
least one part and every part has content of at least 50 characters
(hence non-empty), and the emitted divisions copy the response fields —
including the `numero` field — verbatim and positionally.  The code
never validates that the numbers form a contiguous 1..N sequence; the
claim as stated is refuted at `C8_contra`. -/
theorem C8_teorema (d : DivisaoConteudo) (s : MindmapState)
    (h : (dividir_conteudo_node (some d) s).status ≠ .erro) :
    d.partes ≠ [] ∧ (∀ p ∈ d.partes, 50 ≤ p.conteudo_completo.length) ∧
      (dividir_conteudo_node (some d) s).divisoes =
        d.partes.map fun p =>
          { numero := p.numero, titulo := p.titulo,
            conteudo := p.conteudo_completo,
            estimativa_mapas := p.estimativa_mapas } := by
  by_cases h1 : d.partes = []
  · exact absurd (by simp [dividir_conteudo_node, h1]) h
  · by_cases h2 : d.partes.any (fun p => decide (p.conteudo_completo.length < 50)) = true
    · exact absurd (by simp [dividir_conteudo_node, h1, h2]) h
    · refine ⟨h1, ?_, by simp [dividir_conteudo_node, h1, h2]⟩
      intro p hp
      have h3 := List.any_eq_false.mp (Bool.eq_false_iff.mpr h2) p hp
      simp at h3
      omega

/-- Witness for C8: the concrete pydantic-valid response with numbers 5
and 9 succeeds and its fields are copied verbatim. -/
theorem C8_testemunha :
    respostaDivisaoX.partes ≠ [] ∧
      (∀ p ∈ respostaDivisaoX.partes, 50 ≤ p.conteudo_completo.length) ∧
      (dividir_conteudo_node (some respostaDivisaoX)
          (estadoInicial "doc.html" 3)).divisoes =
        respostaDivisaoX.partes.map fun p =>
          { numero := p.numero, titulo := p.titulo,
            conteudo := p.conteudo_completo,
            estimativa_mapas := p.estimativa_mapas } :=
  C8_teorema respostaDivisaoX (estadoInicial "doc.html" 3) (by decide)

/-- Claim C9: a batch run returns exactly one result per submitted file,
positionally: slot `i` holds the document state computed by
`execute_graph_parallel` from file `i` and its own environment alone, so
a failing document is reported in its own slot and cannot disturb any
other slot. -/
theorem C9_teorema (arquivos : List String) (bs : ℕ → DocComportamento) :
    (processar_multiplos_htmls_paralelo arquivos bs).length = arquivos.length
    ∧ ∀ i : ℕ, (processar_multiplos_htmls_paralelo arquivos bs)[i]? =
        (arquivos[i]?).map fun nome => execute_graph_parallel nome (bs i) := by
  constructor
  · simp [processar_multiplos_htmls_paralelo, List.enum_length]
  · intro i
    simp only [processar_multiplos_htmls_paralelo, List.getElem?_map,
      List.getElem?_enum]
    cases harq : arquivos[i]? with
    | none => rfl
    | some nome => rfl

/-- Claim C10: extraction failure is atomic — `parse_html_node` reports
`erro` exactly on the enumerated failure conditions, and in every error
case it leaves `ramo_direito`, `topico` and `fundamentacao` exactly as
they were at entry and stores a nonempty error message. -/
theorem C10_teorema (inp : ParseIn) (s : MindmapState) :
    ((parse_html_node inp s).status = .erro ↔ falhaParse inp)
    ∧ ((parse_html_node inp s).status = .erro →
      (parse_html_node inp s).ramo_direito = s.ramo_direito ∧
      (parse_html_node inp s).topico = s.topico ∧
      (parse_html_node inp s).fundamentacao = s.fundamentacao ∧
      ∃ m, (parse_html_node inp s).erro_msg = some m ∧ m ≠ "") := by
  obtain ⟨ex, le, tt, mp, ma, ft⟩ := inp
  cases ex with
  | false =>
    refine ⟨by simp [parse_html_node, falhaParse], fun _ => ?_⟩
    refine ⟨rfl, rfl, rfl, "Arquivo não encontrado: " ++ s.html_filename,
      rfl, append_ne_vazio _ _ (by decide)⟩
  | true =>
    cases le with
    | some m =>
      refine ⟨by simp [parse_html_node, falhaParse], fun _ => ?_⟩
      refine ⟨rfl, rfl, rfl, "Erro ao processar HTML: " ++ m, rfl,
        append_ne_vazio _ _ (by decide)⟩
    | none =>
      cases tt with
      | none =>
        refine ⟨by simp [parse_html_node, falhaParse], fun _ => ?_⟩
        exact ⟨rfl, rfl, rfl, _, rfl, by decide⟩
      | some t =>
        cases mp with
        | none =>
          cases ma with
          | none =>
            refine ⟨by simp [parse_html_node, falhaParse, Option.orElse],
              fun _ => ?_⟩
            exact ⟨rfl, rfl, rfl, _, rfl, by decide⟩
          | some g =>
            cases ft with
            | none =>
              refine ⟨by simp [parse_html_node, falhaParse, Option.orElse],
                fun _ => ?_⟩
              exact ⟨rfl, rfl, rfl, _, rfl, by decide⟩
            | some f =>
              by_cases hf : f.length < 100
              · refine ⟨by simp [parse_html_node, falhaParse, Option.orElse, hf],
                  fun _ => ?_⟩
                simp only [parse_html_node, Option.orElse]
                rw [if_pos hf]
                exact ⟨rfl, rfl, rfl, _, rfl, by decide⟩
              · constructor
                · simp [parse_html_node, falhaParse, Option.orElse, hf]
                · intro hEq
                  simp only [parse_html_node, Option.orElse] at hEq
                  rw [if_neg hf] at hEq
                  exact absurd hEq (by intro h; exact Status.noConfusion h)
        | some g =>
          cases ft with
          | none =>
            refine ⟨by simp [parse_html_node, falhaParse, Option.orElse],
              fun _ => ?_⟩
            exact ⟨rfl, rfl, rfl, _, rfl, by decide⟩
          | some f =>
            by_cases hf : f.length < 100
            · refine ⟨by simp [parse_html_node, falhaParse, Option.orElse, hf],
                fun _ => ?_⟩
              simp only [parse_html_node, Option.orElse]
              rw [if_pos hf]
              exact ⟨rfl, rfl, rfl, _, rfl, by decide⟩
            · constructor
              · simp [parse_html_node, falhaParse, Option.orElse, hf]
              · intro hEq
                simp only [parse_html_node, Option.orElse] at hEq
                rw [if_neg hf] at hEq
                exact absurd hEq (by intro h; exact Status.noConfusion h)

/-- Witness for C10: a run against a missing fundamentacao section keeps
the entry fields and reports a nonempty message. -/
theorem C10_testemunha :
    (parse_html_node ⟨true, none, some "t", some ("a", "b"), none, none⟩
        estadoDuasPartes).ramo_direito = estadoDuasPartes.ramo_direito ∧
      (parse_html_node ⟨true, none, some "t", some ("a", "b"), none, none⟩
        estadoDuasPartes).topico = estadoDuasPartes.topico ∧
      (parse_html_node ⟨true, none, some "t", some ("a", "b"), none, none⟩
        estadoDuasPartes).fundamentacao = estadoDuasPartes.fundamentacao ∧
      ∃ m, (parse_html_node ⟨true, none, some "t", some ("a", "b"), none, none⟩
        estadoDuasPartes).erro_msg = some m ∧ m ≠ "" :=
  (C10_teorema ⟨true, none, some "t", some ("a", "b"), none, none⟩
    estadoDuasPartes).2 (by decide)

/-- Witness for C2: a single escaped task exception makes the status
`parcial`. -/
theorem C2_testemunha :
    (agregaResultados [TarefaSaida.excecao "boom"] estadoUmaParte).status =
      .parcial :=
  (C2_teorema [TarefaSaida.excecao "boom"] estadoUmaParte).2.1.mpr
    ⟨_, List.mem_cons_self _ _, "boom", rfl⟩

/-- Helper: the last element of a list with sequential numbers carries
the number `length`. -/
theorem ultima_parte_numero (l : List ParteProcessada) (u : ParteProcessada)
    (hn : numerosSequenciais l) (hu : l.getLast? = some u) :
    u.parte_numero = l.length := by
  have hne : l ≠ [] := by
    intro hl
    subst hl
    exact Option.noConfusion hu
  have hlen : 1 ≤ l.length := by
    cases l with
    | nil => exact absurd rfl hne
    | cons a t => simp
  have hgl : l.getLast hne = u := by
    have h := List.getLast?_eq_getLast l hne
    rw [h] at hu
    exact Option.some.inj hu
  have hdec : l.dropLast ++ [u] = l := by
    have h := List.dropLast_append_getLast hne
    rw [hgl] at h
    exact h
  have h1 : (numerosDe l).getLast? = some u.parte_numero := by
    conv_lhs => rw [← hdec]
    rw [numerosDe, List.map_append]
    simp [List.getLast?_concat]
  rw [hn, range'_getLast l.length hlen] at h1
  exact (Option.some.inj h1).symm

/-- Helper: decomposition of a nonempty list as dropLast plus last. -/
theorem decompoe_ultima (l : List ParteProcessada) (u : ParteProcessada)
    (hu : l.getLast? = some u) : l.dropLast ++ [u] = l := by
  have hne : l ≠ [] := by
    intro hl
    subst hl
    exact Option.noConfusion hu
  have hgl : l.getLast hne = u := by
    have h := List.getLast?_eq_getLast l hne
    rw [h] at hu
    exact Option.some.inj hu
  have h := List.dropLast_append_getLast hne
  rw [hgl] at h
  exact h

/-- Helper: `atualizaUltima` keeps the numbers, the length and the
dropLast when the updater keeps the part number. -/
theorem atualizaUltima_fatos (l : List ParteProcessada)
    (f : ParteProcessada → ParteProcessada) (u : ParteProcessada)
    (hu : l.getLast? = some u)
    (hnum : (f u).parte_numero = u.parte_numero) :
    numerosDe (atualizaUltima l f) = numerosDe l ∧
    (atualizaUltima l f).length = l.length ∧
    (atualizaUltima l f).dropLast = l.dropLast ∧
    (atualizaUltima l f).getLast? = some (f u) := by
  have hdec := decompoe_ultima l u hu
  have hau : atualizaUltima l f = l.dropLast ++ [f u] := by
    simp [atualizaUltima, hu]
  refine ⟨?_, ?_, ?_, ?_⟩
  · rw [hau]
    conv_rhs => rw [← hdec]
    rw [numerosDe, numerosDe, List.map_append, List.map_append]
    simp [hnum]
  · rw [hau]
    conv_rhs => rw [← hdec]
    simp [List.length_append]
  · rw [hau, List.dropLast_concat]
  · rw [hau, List.getLast?_concat]

/-- Helper: if all of dropLast and the last are approved, the whole
list is approved. -/
theorem todas_com_ultima (l : List ParteProcessada) (u : ParteProcessada)
    (hta : todasAprovadasMenosUltima l) (hu : l.getLast? = some u)
    (hap : u.aprovado = some true) : ∀ p ∈ l, p.aprovado = some true := by
  intro p hp
  rw [← decompoe_ultima l u hu] at hp
  rcases List.mem_append.mp hp with hmem | hmem
  · exact hta p hmem
  · rw [List.mem_singleton.mp hmem]
    exact hap

/-- Helper: a fully approved list is kept whole by the approval filter. -/
theorem filtro_aprovadas_tudo (l : List ParteProcessada)
    (h : ∀ p ∈ l, p.aprovado = some true) :
    (l.filter ehAprovada).length = l.length := by
  rw [List.filter_eq_self.mpr]
  intro a ha
  simp [ehAprovada, h a ha]

/-- Helper: with an unapproved last element, the approval filter keeps
exactly the dropLast. -/
theorem filtro_aprovadas_sem_ultima (l : List ParteProcessada)
    (u : ParteProcessada) (hta : todasAprovadasMenosUltima l)
    (hu : l.getLast? = some u) (hnap : u.aprovado ≠ some true) :
    (l.filter ehAprovada).length = l.length - 1 := by
  have hdec := decompoe_ultima l u hu
  conv_lhs => rw [← hdec]
  rw [List.filter_append]
  have hfu : List.filter ehAprovada [u] = [] := by
    simp [ehAprovada, hnap]
  rw [hfu, List.append_nil]
  rw [filtro_aprovadas_tudo l.dropLast hta, List.length_dropLast]

/-- Helper: indexing with a natural number through `pyGet`. -/
theorem pyGet_nat {α : Type} (l : List α) (i : ℕ) (h : i < l.length) :
    pyGet l (i : ℤ) = some l[i] := by
  rw [pyGet, if_pos (Int.ofNat_nonneg i)]
  rw [Int.toNat_ofNat]
  exact List.getElem?_eq_getElem h

/-- Helper: appending a part numbered `length + 1` keeps the numbers
sequential. -/
theorem numerosSequenciais_append (l : List ParteProcessada)
    (p : ParteProcessada) (hn : numerosSequenciais l)
    (hp : p.parte_numero = l.length + 1) :
    numerosSequenciais (l ++ [p]) := by
  rw [numerosSequenciais, numerosDe, List.map_append, List.length_append]
  have hlen : l.length + [p].length = l.length + 1 := rfl
  rw [hlen, List.range'_concat]
  have hnum : 1 + 1 * l.length = l.length + 1 := by ring
  rw [hnum]
  have hl : List.map (fun q => q.parte_numero) l = List.range' 1 l.length := hn
  simp [hl, hp]

/-- Helper: behaviour of the generator call tail for an in-range index:
the state keeps divisions and attempt bound; on exception the parts are
the ones passed in, on success the retry flag decides between updating
the last part and appending part `n + 1`. -/
theorem gerarChamada_carac (g : GenOutcome) (s : MindmapState) (idx : ℤ)
    (isRetry : Bool) (tent : ℕ) (partes : List ParteProcessada)
    (n : ℕ) (hidx : idx = (n : ℤ)) (hn : n < s.divisoes.length) :
    (gerarChamada g s idx isRetry tent partes).1.divisoes = s.divisoes ∧
    (gerarChamada g s idx isRetry tent partes).1.max_tentativas =
      s.max_tentativas ∧
    ((∃ m, g = .exc m ∧
       (gerarChamada g s idx isRetry tent partes).1.partes_processadas =
         partes) ∨
     ∃ mapa, g = .ok mapa ∧
       ((isRetry = true ∧
         (gerarChamada g s idx isRetry tent partes).1.partes_processadas =
           atualizaUltima partes fun q =>
             { q with mapa_gerado := mapa, tentativas := tent }) ∨
        (isRetry = false ∧
         (gerarChamada g s idx isRetry tent partes).1.partes_processadas =
           partes ++ [novaParte (n + 1) s.divisoes[n].titulo mapa]))) := by
  subst hidx
  have hpg := pyGet_nat s.divisoes n hn
  cases g with
  | exc m =>
    refine ⟨?_, ?_, Or.inl ⟨m, rfl, ?_⟩⟩ <;> simp [gerarChamada, hpg]
  | ok mapa =>
    cases isRetry with
    | true =>
      refine ⟨?_, ?_, Or.inr ⟨mapa, rfl, Or.inl ⟨rfl, ?_⟩⟩⟩ <;>
        simp [gerarChamada, hpg]
    | false =>
      refine ⟨?_, ?_, Or.inr ⟨mapa, rfl, Or.inr ⟨rfl, ?_⟩⟩⟩ <;>
        simp [gerarChamada, hpg, Int.toNat_ofNat]

/-- Helper: under the loop invariant, the generator node keeps the
divisions, the attempt bound, the sequential numbering, the
all-but-last approval property and the length bound; it empties the
part list only if it was already empty. -/
theorem gerar_carac (g : GenOutcome) (s : MindmapState) (h : invariante s) :
    (gerar_mindmap_core g s).1.divisoes = s.divisoes ∧
    (gerar_mindmap_core g s).1.max_tentativas = s.max_tentativas ∧
    numerosSequenciais (gerar_mindmap_core g s).1.partes_processadas ∧
    todasAprovadasMenosUltima (gerar_mindmap_core g s).1.partes_processadas ∧
    (gerar_mindmap_core g s).1.partes_processadas.length ≤
      s.divisoes.length ∧
    ((gerar_mindmap_core g s).1.partes_processadas = [] →
      s.partes_processadas = []) := by
  obtain ⟨h1, h2, h3, h4⟩ := h
  cases huL : s.partes_processadas.getLast? with
  | none =>
    have hl : s.partes_processadas = [] := List.getLast?_eq_none_iff.mp huL
    rw [huL] at h4
    have h0 : 0 < s.divisoes.length := by
      rw [hl] at h4
      simpa using h4
    have hna : (s.partes_processadas.filter ehAprovada).length = 0 := by
      rw [hl]
      rfl
    have hlen0 : s.partes_processadas.length = 0 := by
      rw [hl]
      rfl
    have hnaLt : ¬(s.partes_processadas.filter ehAprovada).length ≥
        s.divisoes.length := by omega
    have hred : gerar_mindmap_core g s =
        gerarChamada g s
          (((s.partes_processadas.filter ehAprovada).length : ℕ) : ℤ)
          false 0 s.partes_processadas := by
      simp only [gerar_mindmap_core, huL, hnaLt]
      simp
    rw [hred]
    obtain ⟨hc1, hc2, hc3⟩ := gerarChamada_carac g s _ false 0
      s.partes_processadas (s.partes_processadas.filter ehAprovada).length
      rfl (by omega)
    rcases hc3 with ⟨m, _, hparts⟩ | ⟨mapa, _, hsub⟩
    · rw [hparts]
      exact ⟨hc1, hc2, h1, h2, h3, fun _ => hl⟩
    · rcases hsub with ⟨hcontr, _⟩ | ⟨_, hparts⟩
      · exact Bool.noConfusion hcontr
      · rw [hparts]
        refine ⟨hc1, hc2, ?_, ?_, ?_, ?_⟩
        · exact numerosSequenciais_append _ _ h1 (by
            show _ + 1 = s.partes_processadas.length + 1
            omega)
        · intro p hp
          rw [List.dropLast_concat] at hp
          rw [hl] at hp
          exact absurd hp (List.not_mem_nil p)
        · rw [List.length_append]
          simp only [List.length_cons, List.length_nil]
          omega
        · intro hEq
          simp at hEq
  | some u =>
    rw [huL] at h4
    have hk1 : 1 ≤ s.partes_processadas.length := by
      cases hl2 : s.partes_processadas with
      | nil =>
        rw [hl2] at huL
        exact Option.noConfusion huL
      | cons a t => simp [hl2]
    have hnum := ultima_parte_numero _ u h1 huL
    by_cases hap : u.aprovado = some true
    · have hklt : s.partes_processadas.length < s.divisoes.length := by
        rcases h4 with ⟨_, hk⟩ | ⟨hnap, _⟩
        · exact hk
        · exact absurd hap hnap
      have hall := todas_com_ultima _ u h2 huL hap
      have hna := filtro_aprovadas_tudo _ hall
      have hnaLt : ¬(s.partes_processadas.filter ehAprovada).length ≥
          s.divisoes.length := by omega
      have hred : gerar_mindmap_core g s =
          gerarChamada g s
            (((s.partes_processadas.filter ehAprovada).length : ℕ) : ℤ)
            false 0 s.partes_processadas := by
        simp only [gerar_mindmap_core, huL, hnaLt, hap]
        simp
      rw [hred]
      obtain ⟨hc1, hc2, hc3⟩ := gerarChamada_carac g s _ false 0
        s.partes_processadas (s.partes_processadas.filter ehAprovada).length
        rfl (by omega)
      rcases hc3 with ⟨m, _, hparts⟩ | ⟨mapa, _, hsub⟩
      · rw [hparts]
        exact ⟨hc1, hc2, h1, h2, h3, fun hEq => hEq⟩
      · rcases hsub with ⟨hcontr, _⟩ | ⟨_, hparts⟩
        · exact Bool.noConfusion hcontr
        · rw [hparts]
          refine ⟨hc1, hc2, ?_, ?_, ?_, ?_⟩
          · exact numerosSequenciais_append _ _ h1 (by
              show _ + 1 = s.partes_processadas.length + 1
              omega)
          · intro p hp
            rw [List.dropLast_concat] at hp
            exact hall p hp
          · rw [List.length_append]
            simp only [List.length_cons, List.length_nil]
            omega
          · intro hEq
            simp at hEq
    · have htent : s.tentativas_revisao < s.max_tentativas := by
        rcases h4 with ⟨hap2, _⟩ | ⟨_, ht⟩
        · exact absurd hap2 hap
        · exact ht
      have hna := filtro_aprovadas_sem_ultima _ u h2 huL hap
      have hnaLt : ¬(s.partes_processadas.filter ehAprovada).length ≥
          s.divisoes.length := by omega
      have hng : ¬(s.tentativas_revisao + 1 > s.max_tentativas) := by omega
      have hred : gerar_mindmap_core g s =
          gerarChamada g s ((u.parte_numero : ℤ) - 1) true
            (s.tentativas_revisao + 1) s.partes_processadas := by
        simp only [gerar_mindmap_core, huL, hnaLt, hap, hng]
        simp
      rw [hred]
      obtain ⟨hc1, hc2, hc3⟩ := gerarChamada_carac g s
        ((u.parte_numero : ℤ) - 1) true
        (s.tentativas_revisao + 1) s.partes_processadas
        (u.parte_numero - 1) (by omega) (by omega)
      rcases hc3 with ⟨m, _, hparts⟩ | ⟨mapa, _, hsub⟩
      · rw [hparts]
        exact ⟨hc1, hc2, h1, h2, h3, fun hEq => hEq⟩
      · rcases hsub with ⟨_, hparts⟩ | ⟨hcontr, _⟩
        · obtain ⟨ha1, ha2, ha3, ha4⟩ := atualizaUltima_fatos
            s.partes_processadas
            (fun q => { q with mapa_gerado := mapa, tentativas := s.tentativas_revisao + 1 }) u huL rfl
          rw [hparts]
          refine ⟨hc1, hc2, ?_, ?_, ?_, ?_⟩
          · show numerosDe _ = List.range' 1 _
            rw [ha1, ha2]
            exact h1
          · intro p hp
            rw [ha3] at hp
            exact h2 p hp
          · rw [ha2]
            exact h3
          · intro hEq
            have hlen0 : (atualizaUltima s.partes_processadas fun q => { q with mapa_gerado := mapa, tentativas := s.tentativas_revisao + 1 }).length = 0 := by
              rw [hEq]
              rfl
            rw [ha2] at hlen0
            exact List.length_eq_zero.mp hlen0
        · exact Bool.noConfusion hcontr

/-- Helper: with a nonempty part list, the reviewer node keeps the
divisions, the attempt bound, the retry counter, the length, the
sequential numbering and the all-but-last approval property; the last
part ends approved unless the rejection branch ran with retry budget
left. -/
theorem revisar_carac (r : RevOutcome) (s1 : MindmapState)
    (u : ParteProcessada) (hu : s1.partes_processadas.getLast? = some u)
    (hnum : numerosSequenciais s1.partes_processadas)
    (hta : todasAprovadasMenosUltima s1.partes_processadas) :
    (revisar_mindmap_node r s1).divisoes = s1.divisoes ∧
    (revisar_mindmap_node r s1).max_tentativas = s1.max_tentativas ∧
    (revisar_mindmap_node r s1).tentativas_revisao = s1.tentativas_revisao ∧
    (revisar_mindmap_node r s1).partes_processadas.length =
      s1.partes_processadas.length ∧
    numerosSequenciais (revisar_mindmap_node r s1).partes_processadas ∧
    todasAprovadasMenosUltima (revisar_mindmap_node r s1).partes_processadas ∧
    ∃ u2, (revisar_mindmap_node r s1).partes_processadas.getLast? = some u2 ∧
      (u2.aprovado = some true ∨
        s1.tentativas_revisao < s1.max_tentativas) := by
  rw [revisar_mindmap_node, revisar_mindmap_core.eq_def]
  split
  · next heq =>
    rw [hu] at heq
    exact Option.noConfusion heq
  · next u' heq =>
    have huu : u' = u := by
      rw [hu] at heq
      exact (Option.some.inj heq).symm
    subst huu
    split
    · obtain ⟨hb1, hb2, hb3, hb4⟩ := atualizaUltima_fatos
        s1.partes_processadas
        (fun p => { p with aprovado := some true, nota_geral := some 5, justificativa_revisao := some (.autoErroRevisor "list index out of range") })
        u' hu rfl
      refine ⟨rfl, rfl, rfl, hb2, ?_, ?_, _, hb4, Or.inl rfl⟩
      · show numerosDe _ = List.range' 1 _
        rw [hb1, hb2]
        exact hnum
      · intro p hp
        rw [hb3] at hp
        exact hta p hp
    · split
      · next rr m =>
        obtain ⟨hb1, hb2, hb3, hb4⟩ := atualizaUltima_fatos
          s1.partes_processadas
          (fun p => { p with aprovado := some true, nota_geral := some 5, justificativa_revisao := some (.autoErroRevisor m) })
          u' hu rfl
        refine ⟨rfl, rfl, rfl, hb2, ?_, ?_, _, hb4, Or.inl rfl⟩
        · show numerosDe _ = List.range' 1 _
          rw [hb1, hb2]
          exact hnum
        · intro p hp
          rw [hb3] at hp
          exact hta p hp
      · next rr av =>
        obtain ⟨hb1, hb2, hb3, hb4⟩ := atualizaUltima_fatos
          s1.partes_processadas
          (fun p => { p with aprovado := some av.aprovado, nota_geral := some av.nota_geral, problemas := av.problemas, sugestoes_melhoria := av.sugestoes_melhoria, justificativa_revisao := some (.texto av.justificativa) })
          u' hu rfl
        by_cases hav : av.aprovado = true
        · rw [if_pos hav]
          refine ⟨rfl, rfl, rfl, hb2, ?_, ?_, _, hb4, Or.inl ?_⟩
          · show numerosDe _ = List.range' 1 _
            rw [hb1, hb2]
            exact hnum
          · intro p hp
            rw [hb3] at hp
            exact hta p hp
          · show some av.aprovado = some true
            rw [hav]
        · rw [if_neg hav]
          by_cases hmax : s1.tentativas_revisao ≥ s1.max_tentativas
          · rw [if_pos hmax]
            obtain ⟨hc1, hc2, hc3, hc4⟩ := atualizaUltima_fatos
              (atualizaUltima s1.partes_processadas
                (fun p => { p with aprovado := some av.aprovado, nota_geral := some av.nota_geral, problemas := av.problemas, sugestoes_melhoria := av.sugestoes_melhoria, justificativa_revisao := some (.texto av.justificativa) }))
              (fun p => { p with aprovado := some true, nota_geral := some 5, justificativa_revisao := some (.autoExaustaoRevisor s1.max_tentativas av.nota_geral av.problemas.length) })
              _ hb4 rfl
            refine ⟨rfl, rfl, rfl, ?_, ?_, ?_, _, hc4, Or.inl rfl⟩
            · rw [hc2, hb2]
            · show numerosDe _ = List.range' 1 _
              rw [hc1, hb1, hc2, hb2]
              exact hnum
            · intro p hp
              rw [hc3, hb3] at hp
              exact hta p hp
          · rw [if_neg hmax]
            refine ⟨rfl, rfl, rfl, hb2, ?_, ?_, _, hb4, Or.inr (by omega)⟩
            · show numerosDe _ = List.range' 1 _
              rw [hb1, hb2]
              exact hnum
            · intro p hp
              rw [hb3] at hp
              exact hta p hp

/-- Helper: the reviewer node on an empty part list only reports the
error. -/
theorem revisar_vazio (r : RevOutcome) (s1 : MindmapState)
    (h : s1.partes_processadas = []) :
    revisar_mindmap_node r s1 =
      { s1 with
          status := .erro
          erro_msg := some "Nenhuma parte processada para revisão" } := by
  have hnone : s1.partes_processadas.getLast? = none := by
    rw [h]
    rfl
  rw [revisar_mindmap_node, revisar_mindmap_core.eq_def]
  split
  · rfl
  · next u heq =>
    rw [hnone] at heq
    exact Option.noConfusion heq

/-- Helper: one pass of the sequential loop preserves the invariant on
the routes that continue, and reaches the save route only with exactly
one result per division, numbered 1..N; divisions and the attempt bound
never change. -/
theorem passo_inv (p : PassoIn) (s : MindmapState) (h : invariante s) :
    ((superstep p s).rota = .gerar → invariante (superstep p s).estado) ∧
    ((superstep p s).rota = .proximaParte →
      invariante (superstep p s).estado) ∧
    ((superstep p s).rota = .salvar →
      numerosDe (superstep p s).estado.partes_processadas =
        List.range' 1 (superstep p s).estado.divisoes.length ∧
      (superstep p s).estado.partes_processadas.length =
        (superstep p s).estado.divisoes.length) ∧
    (superstep p s).estado.divisoes = s.divisoes ∧
    (superstep p s).estado.max_tentativas = s.max_tentativas := by
  obtain ⟨hg1, hg2, hg3, hg4, hg5, hg6⟩ := gerar_carac p.ger s h
  suffices hS :
      (should_retry_or_continue
          (revisar_mindmap_node p.rev (gerar_mindmap_core p.ger s).1) =
          .gerar →
        invariante
          (revisar_mindmap_node p.rev (gerar_mindmap_core p.ger s).1)) ∧
      (should_retry_or_continue
          (revisar_mindmap_node p.rev (gerar_mindmap_core p.ger s).1) =
          .proximaParte →
        invariante
          (revisar_mindmap_node p.rev (gerar_mindmap_core p.ger s).1)) ∧
      (should_retry_or_continue
          (revisar_mindmap_node p.rev (gerar_mindmap_core p.ger s).1) =
          .salvar →
        numerosDe
            (revisar_mindmap_node p.rev
              (gerar_mindmap_core p.ger s).1).partes_processadas =
          List.range' 1
            (revisar_mindmap_node p.rev
              (gerar_mindmap_core p.ger s).1).divisoes.length ∧
        (revisar_mindmap_node p.rev
            (gerar_mindmap_core p.ger s).1).partes_processadas.length =
          (revisar_mindmap_node p.rev
            (gerar_mindmap_core p.ger s).1).divisoes.length) ∧
      (revisar_mindmap_node p.rev (gerar_mindmap_core p.ger s).1).divisoes =
        s.divisoes ∧
      (revisar_mindmap_node p.rev
          (gerar_mindmap_core p.ger s).1).max_tentativas =
        s.max_tentativas by
    exact hS
  by_cases hemp : (gerar_mindmap_core p.ger s).1.partes_processadas = []
  · have hsempty := hg6 hemp
    have hrv := revisar_vazio p.rev (gerar_mindmap_core p.ger s).1 hemp
    rw [hrv]
    have h0 : 0 < s.divisoes.length := by
      obtain ⟨_, _, _, h4⟩ := h
      have hnone : s.partes_processadas.getLast? = none := by
        rw [hsempty]
        rfl
      rw [hnone] at h4
      rw [hsempty] at h4
      simpa using h4
    have hlen2 : (gerar_mindmap_core p.ger s).1.partes_processadas.length =
        0 := by
      rw [hemp]
      rfl
    constructor
    · intro hrota
      exfalso
      rw [should_retry_or_continue] at hrota
      split at hrota
      · split at hrota <;> exact Rota.noConfusion hrota
      · split at hrota
        · exact Rota.noConfusion hrota
        · next uu hequ =>
          simp [hemp] at hequ
    constructor
    · intro _
      refine ⟨?_, ?_, ?_, ?_⟩
      · show numerosSequenciais
          (gerar_mindmap_core p.ger s).1.partes_processadas
        rw [hemp]
        rfl
      · intro q hq
        rw [hemp] at hq
        exact absurd hq (List.not_mem_nil q)
      · show (gerar_mindmap_core p.ger s).1.partes_processadas.length ≤
          (gerar_mindmap_core p.ger s).1.divisoes.length
        rw [hlen2, hg1]
        omega
      · show (match
          (gerar_mindmap_core p.ger s).1.partes_processadas.getLast? with
          | none =>
            (gerar_mindmap_core p.ger s).1.partes_processadas.length <
              (gerar_mindmap_core p.ger s).1.divisoes.length
          | some u =>
            (u.aprovado = some true ∧
              (gerar_mindmap_core p.ger s).1.partes_processadas.length <
                (gerar_mindmap_core p.ger s).1.divisoes.length) ∨
            (u.aprovado ≠ some true ∧
              (gerar_mindmap_core p.ger s).1.tentativas_revisao <
                (gerar_mindmap_core p.ger s).1.max_tentativas))
        have hnone2 :
            (gerar_mindmap_core p.ger s).1.partes_processadas.getLast? =
              none := by
          rw [hemp]
          rfl
        rw [hnone2]
        rw [hlen2, hg1]
        omega
    constructor
    · intro hrota
      exfalso
      rw [should_retry_or_continue] at hrota
      split at hrota
      · split at hrota
        · exact Rota.noConfusion hrota
        · next hnlt =>
          apply hnlt
          simp only [hemp]
          simp [hg1]
          omega
      · split at hrota
        · exact Rota.noConfusion hrota
        · next uu hequ =>
          simp [hemp] at hequ
    · exact ⟨hg1, hg2⟩
  · obtain ⟨u1, hu1⟩ : ∃ u1,
        (gerar_mindmap_core p.ger s).1.partes_processadas.getLast? =
          some u1 :=
      ⟨_, List.getLast?_eq_getLast _ hemp⟩
    obtain ⟨hr1, hr2, hr3, hr4, hr5, hr6, u2, hu2, hkey⟩ :=
      revisar_carac p.rev (gerar_mindmap_core p.ger s).1 u1 hu1 hg3 hg4
    have hdiv : (revisar_mindmap_node p.rev
        (gerar_mindmap_core p.ger s).1).divisoes = s.divisoes := by
      rw [hr1, hg1]
    have hmax : (revisar_mindmap_node p.rev
        (gerar_mindmap_core p.ger s).1).max_tentativas = s.max_tentativas := by
      rw [hr2, hg2]
    have hlen : (revisar_mindmap_node p.rev
        (gerar_mindmap_core p.ger s).1).partes_processadas.length ≤
        (revisar_mindmap_node p.rev
          (gerar_mindmap_core p.ger s).1).divisoes.length := by
      rw [hr4, hr1, hg1]
      exact hg5
    refine ⟨?_, ?_, ?_, hdiv, hmax⟩
    · intro hrota
      rw [should_retry_or_continue] at hrota
      by_cases hex : (revisar_mindmap_node p.rev
          (gerar_mindmap_core p.ger s).1).tentativas_revisao ≥
          (revisar_mindmap_node p.rev
            (gerar_mindmap_core p.ger s).1).max_tentativas
      · rw [if_pos hex] at hrota
        exfalso
        split at hrota <;> exact Rota.noConfusion hrota
      · rw [if_neg hex] at hrota
        split at hrota
        · next hequ =>
          rw [hu2] at hequ
          exact Option.noConfusion hequ
        · next uu hequ =>
          rw [hu2] at hequ
          have huu : uu = u2 := (Option.some.inj hequ).symm
          subst huu
          by_cases hap2 : uu.aprovado = some true
          · rw [if_pos hap2] at hrota
            exfalso
            split at hrota <;> exact Rota.noConfusion hrota
          · refine ⟨hr5, hr6, hlen, ?_⟩
            simp only [hu2]
            right
            refine ⟨hap2, ?_⟩
            omega
    · intro hrota
      rw [should_retry_or_continue] at hrota
      by_cases hex : (revisar_mindmap_node p.rev
          (gerar_mindmap_core p.ger s).1).tentativas_revisao ≥
          (revisar_mindmap_node p.rev
            (gerar_mindmap_core p.ger s).1).max_tentativas
      · rw [if_pos hex] at hrota
        by_cases hlt : (revisar_mindmap_node p.rev
            (gerar_mindmap_core p.ger s).1).partes_processadas.length <
            (revisar_mindmap_node p.rev
              (gerar_mindmap_core p.ger s).1).divisoes.length
        · have hap2 : u2.aprovado = some true := by
            rcases hkey with hk | hk
            · exact hk
            · exfalso
              rw [hr3, hr2] at hex
              omega
          refine ⟨hr5, hr6, hlen, ?_⟩
          simp only [hu2]
          left
          exact ⟨hap2, hlt⟩
        · exfalso
          rw [if_neg hlt] at hrota
          exact Rota.noConfusion hrota
      · rw [if_neg hex] at hrota
        split at hrota
        · next hequ =>
          rw [hu2] at hequ
          exact Option.noConfusion hequ
        · next uu hequ =>
          rw [hu2] at hequ
          have huu : uu = u2 := (Option.some.inj hequ).symm
          subst huu
          by_cases hap2 : uu.aprovado = some true
          · rw [if_pos hap2] at hrota
            by_cases hlt : (revisar_mindmap_node p.rev
                (gerar_mindmap_core p.ger s).1).partes_processadas.length <
                (revisar_mindmap_node p.rev
                  (gerar_mindmap_core p.ger s).1).divisoes.length
            · refine ⟨hr5, hr6, hlen, ?_⟩
              simp only [hu2]
              left
              exact ⟨hap2, hlt⟩
            · exfalso
              rw [if_neg hlt] at hrota
              exact Rota.noConfusion hrota
          · exfalso
            rw [if_neg hap2] at hrota
            exact Rota.noConfusion hrota
    · intro hrota
      rw [should_retry_or_continue] at hrota
      have hgoal : ¬((revisar_mindmap_node p.rev
          (gerar_mindmap_core p.ger s).1).partes_processadas.length <
          (revisar_mindmap_node p.rev
            (gerar_mindmap_core p.ger s).1).divisoes.length) →
          numerosDe (revisar_mindmap_node p.rev
            (gerar_mindmap_core p.ger s).1).partes_processadas =
            List.range' 1 (revisar_mindmap_node p.rev
              (gerar_mindmap_core p.ger s).1).divisoes.length ∧
          (revisar_mindmap_node p.rev
            (gerar_mindmap_core p.ger s).1).partes_processadas.length =
            (revisar_mindmap_node p.rev
              (gerar_mindmap_core p.ger s).1).divisoes.length := by
        intro hnlt
        have hEqLen : (revisar_mindmap_node p.rev
            (gerar_mindmap_core p.ger s).1).partes_processadas.length =
            (revisar_mindmap_node p.rev
              (gerar_mindmap_core p.ger s).1).divisoes.length := by omega
        constructor
        · rw [← hEqLen]
          exact hr5
        · exact hEqLen
      by_cases hex : (revisar_mindmap_node p.rev
          (gerar_mindmap_core p.ger s).1).tentativas_revisao ≥
          (revisar_mindmap_node p.rev
            (gerar_mindmap_core p.ger s).1).max_tentativas
      · rw [if_pos hex] at hrota
        by_cases hlt : (revisar_mindmap_node p.rev
            (gerar_mindmap_core p.ger s).1).partes_processadas.length <
            (revisar_mindmap_node p.rev
              (gerar_mindmap_core p.ger s).1).divisoes.length
        · exfalso
          rw [if_pos hlt] at hrota
          exact Rota.noConfusion hrota
        · exact hgoal hlt
      · rw [if_neg hex] at hrota
        split at hrota
        · next hequ =>
          rw [hu2] at hequ
          exact Option.noConfusion hequ
        · next uu hequ =>
          rw [hu2] at hequ
          have huu : uu = u2 := (Option.some.inj hequ).symm
          subst huu
          by_cases hap2 : uu.aprovado = some true
          · rw [if_pos hap2] at hrota
            by_cases hlt : (revisar_mindmap_node p.rev
                (gerar_mindmap_core p.ger s).1).partes_processadas.length <
                (revisar_mindmap_node p.rev
                  (gerar_mindmap_core p.ger s).1).divisoes.length
            · exfalso
              rw [if_pos hlt] at hrota
              exact Rota.noConfusion hrota
            · exact hgoal hlt
          · exfalso
            rw [if_neg hap2] at hrota
            exact Rota.noConfusion hrota

/-- Helper: membership in the approved-index list. -/
theorem mem_indicesAprovadas (s : MindmapState) (j : ℤ) :
    j ∈ indicesAprovadas s ↔
    ∃ jn : ℕ, (jn : ℤ) = j ∧ ∃ q, s.partes_processadas[jn]? = some q ∧
      q.aprovado = some true := by
  rw [indicesAprovadas]
  constructor
  · intro hj
    obtain ⟨a, ha, hfa⟩ := List.mem_filterMap.mp hj
    obtain ⟨i, hi⟩ := List.mem_iff_getElem?.mp ha
    rw [List.getElem?_enum] at hi
    cases hq : s.partes_processadas[i]? with
    | none =>
      rw [hq] at hi
      exact Option.noConfusion hi
    | some q =>
      rw [hq] at hi
      have ha2 : a = (i, q) := (Option.some.inj hi).symm
      subst ha2
      by_cases hap : q.aprovado = some true
      · rw [if_pos hap] at hfa
        exact ⟨i, Option.some.inj hfa, q, hq, hap⟩
      · rw [if_neg hap] at hfa
        exact Option.noConfusion hfa
  · rintro ⟨jn, hjn, q, hq, hap⟩
    apply List.mem_filterMap.mpr
    refine ⟨(jn, q), ?_, ?_⟩
    · apply List.mem_iff_getElem?.mpr
      refine ⟨jn, ?_⟩
      rw [List.getElem?_enum, hq]
      rfl
    · show (if q.aprovado = some true then some ((jn : ℕ) : ℤ) else none) =
        some j
      rw [if_pos hap, hjn]
  
/-- Helper: an approved entry of a list with an unapproved last element
lies in the dropLast, at the same index. -/
theorem aprovada_em_dropLast (l : List ParteProcessada)
    (u : ParteProcessada) (hu : l.getLast? = some u)
    (hnap : u.aprovado ≠ some true) (jn : ℕ) (q : ParteProcessada)
    (hq : l[jn]? = some q) (hap : q.aprovado = some true) :
    l.dropLast[jn]? = some q := by
  have hdec := decompoe_ultima l u hu
  have hlt : jn < l.length := by
    by_contra hge
    rw [List.getElem?_eq_none (le_of_not_lt hge)] at hq
    exact Option.noConfusion hq
  have hlen : l.dropLast.length = l.length - 1 := List.length_dropLast l
  by_cases hj : jn < l.dropLast.length
  · have hsplit : l[jn]? = l.dropLast[jn]? := by
      conv_lhs => rw [← hdec]
      rw [List.getElem?_append, if_pos hj]
    rw [← hsplit]
    exact hq
  · exfalso
    have hje : jn = l.length - 1 := by omega
    have hlast : l[jn]? = some u := by
      rw [hje, ← List.getLast?_eq_getElem?]
      exact hu
    rw [hq] at hlast
    have : q = u := Option.some.inj hlast
    subst this
    exact hnap hap

/-- Helper: with an approved last element, the last index is an
approved index. -/
theorem ultima_aprovada_mem (s2 : MindmapState) (u2 : ParteProcessada)
    (hu : s2.partes_processadas.getLast? = some u2)
    (hap : u2.aprovado = some true) :
    ((s2.partes_processadas.length : ℤ) - 1) ∈ indicesAprovadas s2 := by
  have hne : s2.partes_processadas ≠ [] := by
    intro hl
    rw [hl] at hu
    exact Option.noConfusion hu
  have hk1 : 1 ≤ s2.partes_processadas.length := by
    cases hl2 : s2.partes_processadas with
    | nil => exact absurd hl2 hne
    | cons a t => simp
  rw [mem_indicesAprovadas]
  refine ⟨s2.partes_processadas.length - 1, by omega, u2, ?_, hap⟩
  rw [← List.getLast?_eq_getElem?]
  exact hu

/-- Helper: the instrumented target of the generator call tail is the
index passed in, when the division lookup succeeds, and nothing
otherwise. -/
theorem gerarChamada_alvo (g : GenOutcome) (s : MindmapState) (idx : ℤ)
    (isRetry : Bool) (tent : ℕ) (partes : List ParteProcessada) :
    (gerarChamada g s idx isRetry tent partes).2 = some idx ∨
    (gerarChamada g s idx isRetry tent partes).2 = none := by
  rw [gerarChamada.eq_def]
  split
  · right
    rfl
  · split
    · left
      rfl
    · split
      · left
        rfl
      · left
        rfl

/-- Helper: under the invariant, the generator call never targets an
already-approved part, and on a successful generation every approved
entry survives, at its index, in the dropLast of the new part list. -/
theorem gerar_extra (g : GenOutcome) (s : MindmapState) (h : invariante s) :
    (∀ i, (gerar_mindmap_core g s).2 = some i → i ∉ indicesAprovadas s) ∧
    ∀ m, g = GenOutcome.ok m →
      ∀ (jn : ℕ) (q : ParteProcessada),
        s.partes_processadas[jn]? = some q → q.aprovado = some true →
        (gerar_mindmap_core g s).1.partes_processadas.dropLast[jn]? =
          some q := by
  obtain ⟨h1, h2, h3, h4⟩ := h
  cases huL : s.partes_processadas.getLast? with
  | none =>
    have hl : s.partes_processadas = [] := List.getLast?_eq_none_iff.mp huL
    rw [huL] at h4
    have h0 : 0 < s.divisoes.length := by
      rw [hl] at h4
      simpa using h4
    have hna : (s.partes_processadas.filter ehAprovada).length = 0 := by
      rw [hl]
      rfl
    have hnaLt : ¬(s.partes_processadas.filter ehAprovada).length ≥
        s.divisoes.length := by omega
    constructor
    · intro i _ hmem
      rw [mem_indicesAprovadas] at hmem
      obtain ⟨jn, _, q, hq, _⟩ := hmem
      rw [hl] at hq
      simp at hq
    · intro m _ jn q hq _
      rw [hl] at hq
      simp at hq
  | some u =>
    rw [huL] at h4
    have hk1 : 1 ≤ s.partes_processadas.length := by
      cases hl2 : s.partes_processadas with
      | nil =>
        rw [hl2] at huL
        exact Option.noConfusion huL
      | cons a t => simp
    have hnum := ultima_parte_numero _ u h1 huL
    by_cases hap : u.aprovado = some true
    · have hklt : s.partes_processadas.length < s.divisoes.length := by
        rcases h4 with ⟨_, hk⟩ | ⟨hnap, _⟩
        · exact hk
        · exact absurd hap hnap
      have hall := todas_com_ultima _ u h2 huL hap
      have hna := filtro_aprovadas_tudo _ hall
      have hnaLt : ¬(s.partes_processadas.filter ehAprovada).length ≥
          s.divisoes.length := by omega
      have hred : gerar_mindmap_core g s =
          gerarChamada g s
            (((s.partes_processadas.filter ehAprovada).length : ℕ) : ℤ)
            false 0 s.partes_processadas := by
        simp only [gerar_mindmap_core, huL, hnaLt, hap]
        simp
      rw [hred]
      constructor
      · intro i hi hmem
        rcases gerarChamada_alvo g s
            (((s.partes_processadas.filter ehAprovada).length : ℕ) : ℤ)
            false 0 s.partes_processadas with halvo | halvo
        · rw [halvo] at hi
          have hii := Option.some.inj hi
          rw [mem_indicesAprovadas] at hmem
          obtain ⟨jn, hjn, q, hq, hapq⟩ := hmem
          have hjnn : jn = (s.partes_processadas.filter ehAprovada).length :=
            by omega
          rw [hjnn, hna] at hq
          rw [List.getElem?_eq_none (le_refl _)] at hq
          exact Option.noConfusion hq
        · rw [halvo] at hi
          exact Option.noConfusion hi
      · intro m hgm jn q hq hapq
        obtain ⟨_, _, hc3⟩ := gerarChamada_carac g s
          (((s.partes_processadas.filter ehAprovada).length : ℕ) : ℤ)
          false 0 s.partes_processadas
          (s.partes_processadas.filter ehAprovada).length rfl (by omega)
        rcases hc3 with ⟨m2, hgm2, _⟩ | ⟨mapa, _, hsub⟩
        · rw [hgm] at hgm2
          exact GenOutcome.noConfusion hgm2
        · rcases hsub with ⟨hcontr, _⟩ | ⟨_, hparts⟩
          · exact Bool.noConfusion hcontr
          · rw [hparts, List.dropLast_concat]
            exact hq
    · have htent : s.tentativas_revisao < s.max_tentativas := by
        rcases h4 with ⟨hap2, _⟩ | ⟨_, ht⟩
        · exact absurd hap2 hap
        · exact ht
      have hna := filtro_aprovadas_sem_ultima _ u h2 huL hap
      have hnaLt : ¬(s.partes_processadas.filter ehAprovada).length ≥
          s.divisoes.length := by omega
      have hng : ¬(s.tentativas_revisao + 1 > s.max_tentativas) := by omega
      have hred : gerar_mindmap_core g s =
          gerarChamada g s ((u.parte_numero : ℤ) - 1) true
            (s.tentativas_revisao + 1) s.partes_processadas := by
        simp only [gerar_mindmap_core, huL, hnaLt, hap, hng]
        simp
      rw [hred]
      constructor
      · intro i hi hmem
        rcases gerarChamada_alvo g s ((u.parte_numero : ℤ) - 1) true
            (s.tentativas_revisao + 1) s.partes_processadas with
          halvo | halvo
        · rw [halvo] at hi
          have hii := Option.some.inj hi
          rw [mem_indicesAprovadas] at hmem
          obtain ⟨jn, hjn, q, hq, hapq⟩ := hmem
          have hjnn : jn = u.parte_numero - 1 := by omega
          have hlast : s.partes_processadas[jn]? = some u := by
            rw [hjnn, hnum, ← List.getLast?_eq_getElem?]
            exact huL
          rw [hq] at hlast
          have hqu : q = u := Option.some.inj hlast
          subst hqu
          exact hap hapq
        · rw [halvo] at hi
          exact Option.noConfusion hi
      · intro m hgm jn q hq hapq
        obtain ⟨_, _, hc3⟩ := gerarChamada_carac g s
          ((u.parte_numero : ℤ) - 1) true (s.tentativas_revisao + 1)
          s.partes_processadas (u.parte_numero - 1) (by omega) (by omega)
        rcases hc3 with ⟨m2, hgm2, _⟩ | ⟨mapa, _, hsub⟩
        · rw [hgm] at hgm2
          exact GenOutcome.noConfusion hgm2
        · rcases hsub with ⟨_, hparts⟩ | ⟨hcontr, _⟩
          · rw [hparts]
            obtain ⟨_, _, ha3, _⟩ := atualizaUltima_fatos
              s.partes_processadas
              (fun q =>
                { q with
                  mapa_gerado := mapa
                  tentativas := s.tentativas_revisao + 1 })
              u huL rfl
            rw [ha3]
            exact aprovada_em_dropLast s.partes_processadas u huL hap jn q
              hq hapq
          · exact Bool.noConfusion hcontr

/-- Helper: an entry of the dropLast is an entry of the full list at the
same index. -/
theorem getElem?_of_dropLast (l : List ParteProcessada) (n : ℕ)
    (a : ParteProcessada) (h : l.dropLast[n]? = some a) : l[n]? = some a := by
  have hn : n < l.dropLast.length := by
    by_contra hge
    rw [List.getElem?_eq_none (le_of_not_lt hge)] at h
    exact Option.noConfusion h
  cases hL : l.getLast? with
  | none =>
    have hl : l = [] := List.getLast?_eq_none_iff.mp hL
    rw [hl] at hn
    simp at hn
  | some u =>
    have hdec := decompoe_ultima l u hL
    conv_lhs => rw [← hdec]
    rw [List.getElem?_append, if_pos hn]
    exact h

/-- Helper: the reviewer node never removes entries before the last
(the dropLast of the parts is unchanged), and when its exhaustion
force-approval fires the resulting last part is approved. -/
theorem revisar_extra (r : RevOutcome) (s1 : MindmapState) :
    (revisar_mindmap_core r s1).1.partes_processadas.dropLast =
      s1.partes_processadas.dropLast ∧
    ((revisar_mindmap_core r s1).2 = true →
      ∃ u2, (revisar_mindmap_core r s1).1.partes_processadas.getLast? =
        some u2 ∧ u2.aprovado = some true) := by
  rw [revisar_mindmap_core.eq_def]
  split
  · exact ⟨rfl, fun hf => Bool.noConfusion hf⟩
  · next u' hu =>
    split
    · obtain ⟨hb1, hb2, hb3, hb4⟩ := atualizaUltima_fatos
        s1.partes_processadas
        (fun p => { p with aprovado := some true, nota_geral := some 5, justificativa_revisao := some (.autoErroRevisor "list index out of range") })
        u' hu rfl
      exact ⟨hb3, fun hf => Bool.noConfusion hf⟩
    · split
      · next rr m =>
        obtain ⟨hb1, hb2, hb3, hb4⟩ := atualizaUltima_fatos
          s1.partes_processadas
          (fun p => { p with aprovado := some true, nota_geral := some 5, justificativa_revisao := some (.autoErroRevisor m) })
          u' hu rfl
        exact ⟨hb3, fun hf => Bool.noConfusion hf⟩
      · next rr av =>
        obtain ⟨hb1, hb2, hb3, hb4⟩ := atualizaUltima_fatos
          s1.partes_processadas
          (fun p => { p with aprovado := some av.aprovado, nota_geral := some av.nota_geral, problemas := av.problemas, sugestoes_melhoria := av.sugestoes_melhoria, justificativa_revisao := some (.texto av.justificativa) })
          u' hu rfl
        by_cases hav : av.aprovado = true
        · rw [if_pos hav]
          exact ⟨hb3, fun hf => Bool.noConfusion hf⟩
        · rw [if_neg hav]
          by_cases hmax : s1.tentativas_revisao ≥ s1.max_tentativas
          · rw [if_pos hmax]
            obtain ⟨hc1, hc2, hc3, hc4⟩ := atualizaUltima_fatos
              (atualizaUltima s1.partes_processadas
                (fun p => { p with aprovado := some av.aprovado, nota_geral := some av.nota_geral, problemas := av.problemas, sugestoes_melhoria := av.sugestoes_melhoria, justificativa_revisao := some (.texto av.justificativa) }))
              (fun p => { p with aprovado := some true, nota_geral := some 5, justificativa_revisao := some (.autoExaustaoRevisor s1.max_tentativas av.nota_geral av.problemas.length) })
              _ hb4 rfl
            constructor
            · rw [hc3, hb3]
            · intro _
              exact ⟨_, hc4, rfl⟩
          · rw [if_neg hmax]
            exact ⟨hb3, fun hf => Bool.noConfusion hf⟩

/-- Helper: one successful-generation pass of the loop never targets an
already-approved part, keeps every approved index approved, and after a
reviewer force-approval the last index of the new state is approved. -/
theorem passo_c3 (p : PassoIn) (s : MindmapState) (h : invariante s)
    (m : String) (hg : p.ger = GenOutcome.ok m) :
    (∀ i, (superstep p s).alvo = some i → i ∉ indicesAprovadas s) ∧
    (∀ j ∈ indicesAprovadas s, j ∈ indicesAprovadas (superstep p s).estado) ∧
    ((superstep p s).forcado = true →
      (((superstep p s).estado.partes_processadas.length : ℤ) - 1) ∈
        indicesAprovadas (superstep p s).estado) := by
  obtain ⟨halvo, hmono⟩ := gerar_extra p.ger s h
  refine ⟨?_, ?_, ?_⟩
  · intro i hi
    exact halvo i hi
  · intro j hj
    rw [mem_indicesAprovadas] at hj
    obtain ⟨jn, hjn, q, hq, hap⟩ := hj
    have hd := hmono m hg jn q hq hap
    cases hL : (gerar_mindmap_core p.ger s).1.partes_processadas.getLast? with
    | none =>
      have hl : (gerar_mindmap_core p.ger s).1.partes_processadas = [] :=
        List.getLast?_eq_none_iff.mp hL
      rw [hl] at hd
      simp at hd
    | some u1 =>
      obtain ⟨hdl, _⟩ := revisar_extra p.rev (gerar_mindmap_core p.ger s).1
      have hd2 : (superstep p s).estado.partes_processadas.dropLast[jn]? =
          some q := by
        show (revisar_mindmap_core p.rev
          (gerar_mindmap_core p.ger s).1).1.partes_processadas.dropLast[jn]? =
          some q
        rw [hdl]
        exact hd
      have hd3 := getElem?_of_dropLast _ jn q hd2
      exact (mem_indicesAprovadas _ j).mpr ⟨jn, hjn, q, hd3, hap⟩
  · intro hf
    obtain ⟨_, hforce⟩ := revisar_extra p.rev (gerar_mindmap_core p.ger s).1
    obtain ⟨u2, hu2, hap2⟩ := hforce hf
    exact ultima_aprovada_mem (superstep p s).estado u2 hu2 hap2

/-- Helper: the C3 checker passes on any all-successful-generation run
from an invariant state, given that the accumulated history and the
avoided index are already approved. -/
theorem checkC3_geral (trace : List PassoIn) :
    ∀ (s : MindmapState) (hist : List ℤ) (evitar : Option ℤ),
      invariante s →
      (∀ j ∈ hist, j ∈ indicesAprovadas s) →
      (∀ j, evitar = some j → j ∈ indicesAprovadas s) →
      (∀ p ∈ trace, ∃ m, p.ger = GenOutcome.ok m) →
      checkC3 trace s hist evitar = true := by
  induction trace with
  | nil =>
    intro s hist evitar _ _ _ _
    rfl
  | cons p resto ih =>
    intro s hist evitar hinv hhist hev hok
    obtain ⟨m, hm⟩ := hok p (List.mem_cons_self p resto)
    obtain ⟨h1, h2, h3⟩ := passo_c3 p s hinv m hm
    obtain ⟨hr1, hr2, _, _, _⟩ := passo_inv p s hinv
    have hok2 : ∀ p2 ∈ resto, ∃ m2, p2.ger = GenOutcome.ok m2 :=
      fun p2 hp2 => hok p2 (List.mem_cons_of_mem p hp2)
    have hhist2 : ∀ j ∈ hist ++ indicesAprovadas s,
        j ∈ indicesAprovadas (superstep p s).estado := by
      intro j hj
      rcases List.mem_append.mp hj with hj | hj
      · exact h2 j (hhist j hj)
      · exact h2 j hj
    have hev2 : ∀ j,
        (if (superstep p s).forcado &&
            decide ((indicesAprovadas (superstep p s).estado).length <
              s.divisoes.length) then
          some (((superstep p s).estado.partes_processadas.length : ℤ) - 1)
        else none) = some j →
        j ∈ indicesAprovadas (superstep p s).estado := by
      intro j hj
      by_cases hc : (superstep p s).forcado = true ∧
          (indicesAprovadas (superstep p s).estado).length <
            s.divisoes.length
      · have hcb : ((superstep p s).forcado &&
            decide ((indicesAprovadas (superstep p s).estado).length <
              s.divisoes.length)) = true := by
          rw [Bool.and_eq_true, decide_eq_true_eq]
          exact hc
        rw [if_pos hcb] at hj
        have hjj := (Option.some.inj hj).symm
        rw [hjj]
        exact h3 hc.1
      · have hcb : ¬(((superstep p s).forcado &&
            decide ((indicesAprovadas (superstep p s).estado).length <
              s.divisoes.length)) = true) := by
          rw [Bool.and_eq_true, decide_eq_true_eq]
          exact hc
        rw [if_neg hcb] at hj
        exact Option.noConfusion hj
    simp only [checkC3]
    rw [Bool.and_eq_true]
    constructor
    · cases halvo : (superstep p s).alvo with
      | none => rfl
      | some i =>
        rw [Bool.and_eq_true, decide_eq_true_eq]
        constructor
        · intro hmem
          rcases List.mem_append.mp hmem with hmem | hmem
          · exact h1 i halvo (hhist i hmem)
          · exact h1 i halvo hmem
        · cases evitar with
          | none => rfl
          | some j =>
            rw [decide_eq_true_eq]
            intro hij
            apply h1 i halvo
            rw [hij]
            exact hev j rfl
    · cases hrota : (superstep p s).rota with
      | gerar => exact ih _ _ _ (hr1 hrota) hhist2 hev2 hok2
      | proximaParte => exact ih _ _ _ (hr2 hrota) hhist2 hev2 hok2
      | salvar => rfl
      | crash => rfl

/-- Helper: the state left by a successful division with at least one
part satisfies the loop invariant. -/
theorem invariante_inicial (filename ramo topico fund : String)
    (divisoes : List Divisao) (maxT : ℕ) (h : 0 < divisoes.length) :
    invariante (estadoAposDivisao filename ramo topico fund divisoes maxT) := by
  refine ⟨rfl, ?_, ?_, ?_⟩
  · intro q hq
    simp [estadoAposDivisao] at hq
  · exact Nat.zero_le _
  · exact h

/-- Helper: whenever the sequential loop leaves through the save route
from an invariant state, the final part list has exactly one entry per
division, numbered 1..N in order. -/
theorem rodarSeq_salvar (trace : List PassoIn) :
    ∀ s : MindmapState, invariante s →
      (rodarSeq trace s).2 = some .salvar →
      numerosDe (rodarSeq trace s).1.partes_processadas =
        List.range' 1 s.divisoes.length ∧
      (rodarSeq trace s).1.partes_processadas.length = s.divisoes.length := by
  induction trace with
  | nil =>
    intro s _ hfim
    exact Option.noConfusion hfim
  | cons p resto ih =>
    intro s hinv hfim
    obtain ⟨hr1, hr2, hr3, hdiv, _⟩ := passo_inv p s hinv
    simp only [rodarSeq] at hfim ⊢
    cases hrota : (superstep p s).rota with
    | gerar =>
      rw [hrota] at hfim
      obtain ⟨hn, hl⟩ := ih (superstep p s).estado (hr1 hrota) hfim
      rw [hdiv] at hn hl
      exact ⟨hn, hl⟩
    | proximaParte =>
      rw [hrota] at hfim
      obtain ⟨hn, hl⟩ := ih (superstep p s).estado (hr2 hrota) hfim
      rw [hdiv] at hn hl
      exact ⟨hn, hl⟩
    | salvar =>
      obtain ⟨hn, hl⟩ := hr3 hrota
      rw [hdiv] at hn hl
      exact ⟨hn, hl⟩
    | crash =>
      rw [hrota] at hfim
      have hcs : (Rota.crash : Rota) = Rota.salvar := Option.some.inj hfim
      exact Rota.noConfusion hcs

/-- Helper: the parallel part processor always returns a result when at
least one attempt is allowed, numbered for its part. -/
theorem ppc_total (ora : ℕ → RespostaTentativa) (idx : ℕ) (tit : String)
    (maxT : ℕ) (h : 1 ≤ maxT) :
    ∃ r : Resultado,
      processar_parte_completa ora idx tit maxT = some r ∧
        r.parte_numero = idx + 1 := by
  have hne : List.range' 1 maxT ≠ [] := by
    rw [List.range'_ne_nil]
    omega
  have hmem : ∀ t ∈ List.range' 1 maxT, t ≤ maxT := by
    intro t ht
    rw [List.mem_range'_1] at ht
    omega
  obtain ⟨r, hr, _, hnum⟩ := tentativasLoop_total ora (idx + 1) tit maxT _
    hne hmem (range'_getLast maxT h)
  exact ⟨r, hr, hnum⟩

/-- Helper: when every task behaviour actually enters its retry loop and
at least one attempt is allowed, the gather phase yields one result per
division in order, with the result dicts numbered `k+1, ..., k+len`. -/
theorem tarefas_caracterizacao (bs : ℕ → ParteComportamento) (maxT : ℕ)
    (hmax : 1 ≤ maxT)
    (hok : ∀ i, ∃ ora, bs i = ParteComportamento.roda ora) :
    ∀ (l : List Divisao) (k : ℕ),
      ∃ saidas : List TarefaSaida,
        ((List.enumFrom k l).mapM fun q =>
            rodaTarefa (bs q.1) q.1 q.2.titulo maxT) = some saidas ∧
        ((saidas.filterMap fun o =>
            match o with
            | TarefaSaida.resultado r => some r
            | TarefaSaida.excecao _ => none).map
          fun r => r.parte_numero) = List.range' (k + 1) l.length := by
  intro l
  induction l with
  | nil =>
    intro k
    exact ⟨[], rfl, rfl⟩
  | cons d resto ih =>
    intro k
    obtain ⟨saidas, hs, hnums⟩ := ih (k + 1)
    obtain ⟨ora, hora⟩ := hok k
    obtain ⟨r, hr, hnum⟩ := ppc_total ora k d.titulo maxT hmax
    refine ⟨TarefaSaida.resultado r :: saidas, ?_, ?_⟩
    · have hR : rodaTarefa (bs k) k d.titulo maxT =
          some (TarefaSaida.resultado r) := by
        rw [hora]
        show (processar_parte_completa ora k d.titulo maxT).map
          TarefaSaida.resultado = _
        rw [hr]
        rfl
      rw [List.enumFrom_cons, List.mapM_cons, hR, hs]
      rfl
    · rw [List.filterMap_cons]
      simp only []
      rw [List.map_cons, hnums, hnum, List.length_cons, List.range'_succ]

/-- Helper: the full parallel run succeeds and produces parts numbered
exactly 1..N (already sorted) when no task raises before its retry loop
and at least one attempt is allowed. -/
theorem paralelo_numeros (bs : ℕ → ParteComportamento) (s : MindmapState)
    (hmax : 1 ≤ s.max_tentativas)
    (hok : ∀ i, ∃ ora, bs i = ParteComportamento.roda ora) :
    ∃ s2, processar_partes_paralelo bs s = some s2 ∧
      numerosDe s2.partes_processadas = List.range' 1 s.divisoes.length := by
  obtain ⟨saidas, hs, hnums⟩ := tarefas_caracterizacao bs s.max_tentativas
    hmax hok s.divisoes 0
  refine ⟨agregaResultados saidas s, ?_, ?_⟩
  · rw [processar_partes_paralelo]
    have henum : s.divisoes.enum = List.enumFrom 0 s.divisoes := rfl
    rw [henum, hs]
    rfl
  · show numerosDe
      (((saidas.filterMap fun o =>
          match o with
          | TarefaSaida.resultado r => some r
          | TarefaSaida.excecao _ => none).map
            Resultado.paraParte).mergeSort fun a b =>
        decide (a.parte_numero ≤ b.parte_numero)) =
      List.range' 1 s.divisoes.length
    have h1 : ((saidas.filterMap fun o =>
        match o with
        | TarefaSaida.resultado r => some r
        | TarefaSaida.excecao _ => none).map
          fun r => r.parte_numero).Pairwise (· < ·) := by
      rw [hnums]
      exact List.pairwise_lt_range' 1 _
    have h2 := List.pairwise_map.mp h1
    have h3 : ((saidas.filterMap fun o =>
        match o with
        | TarefaSaida.resultado r => some r
        | TarefaSaida.excecao _ => none).map
          Resultado.paraParte).Pairwise (fun a b =>
        decide (a.parte_numero ≤ b.parte_numero) = true) := by
      rw [List.pairwise_map]
      exact h2.imp fun hab => decide_eq_true (Nat.le_of_lt hab)
    rw [List.mergeSort_of_sorted h3]
    rw [numerosDe, List.map_map]
    exact hnums

/-- Claim C3 (amended): over the sequential machine, along every run of
the generate/review loop from a freshly divided, nonempty document in
which the generator node itself never raises, the per-pass checker
passes: the generator never targets a part that was ever approved —
in particular, the pass after a reviewer force-approval with
`approvedCount < totalParts` targets a different part than the one just
force-approved.  (The claim as stated, without the no-generator-exception
condition, is refuted at `C3_contra`: after a generator-node exception
the reviewer re-reviews the already-finalized last part, can revoke its
approval, and the machine then regenerates it.) -/
theorem C3_teorema (filename ramo topico fund : String)
    (divisoes : List Divisao) (maxT : ℕ) (h0 : 0 < divisoes.length)
    (trace : List PassoIn)
    (hok : ∀ p ∈ trace, ∃ m, p.ger = GenOutcome.ok m) :
    checkC3 trace
      (estadoAposDivisao filename ramo topico fund divisoes maxT)
      [] none = true :=
  checkC3_geral trace _ [] none
    (invariante_inicial filename ramo topico fund divisoes maxT h0)
    (fun j hj => absurd hj (List.not_mem_nil j))
    (fun _ hj => Option.noConfusion hj)
    hok

/-- Witness for C3: an exception-free two-pass run that approves both
parts of a two-part document first time. -/
theorem C3_testemunha :
    (0 < ([divisaoA, divisaoB] : List Divisao).length ∧
      ∀ p ∈ [passoAprova, passoAprova], ∃ m, p.ger = GenOutcome.ok m) ∧
    checkC3 [passoAprova, passoAprova]
      (estadoAposDivisao "doc.html" "ramo" "topico" "fund"
        [divisaoA, divisaoB] 1) [] none = true := by
  have hok : ∀ p ∈ [passoAprova, passoAprova], ∃ m, p.ger = GenOutcome.ok m := by
    intro p hp
    rcases List.mem_cons.mp hp with h | hp2
    · exact ⟨"m3", by rw [h]; rfl⟩
    · rcases List.mem_cons.mp hp2 with h | hp3
      · exact ⟨"m3", by rw [h]; rfl⟩
      · exact absurd hp3 (List.not_mem_nil p)
  exact ⟨⟨by decide, hok⟩, C3_teorema "doc.html" "ramo" "topico" "fund"
    [divisaoA, divisaoB] 1 (by decide) [passoAprova, passoAprova] hok⟩

/-- Counterexample to claim C3 as stated: on a two-part document with
`max_tentativas = 1`, the run reject/reject/generator-exception/approve
makes the generator regenerate part 1 after part 1 was already
force-approved (finalized): the generator exception leaves the state
with part 1 still last, the reviewer then re-reviews and rejects the
finalized part, and the next pass generates for it again. -/
theorem C3_contra :
    ¬ (∀ (trace : List PassoIn) (filename ramo topico fund : String)
        (divisoes : List Divisao) (maxT : ℕ),
        checkC3 trace
          (estadoAposDivisao filename ramo topico fund divisoes maxT)
          [] none = true) := by
  intro hall
  have h := hall [passoRejeita, passoRejeita2, passoExcecaoGerador,
    passoAprova] "doc.html" "ramo" "topico" "fund" [divisaoA, divisaoB] 1
  exact absurd h (by decide)

/-- Claim C4 (amended): completed runs collect part numbers forming
exactly the contiguous sequence 1..N: in parallel mode whenever every
part task reaches its retry loop (no pre-loop exception) and at least
one attempt is allowed, and in sequential mode whenever the loop exits
through the save route.  (The claim as stated also covers parallel tasks
that raise before their retry loop; that case is refuted at `C4_contra`,
where the raised part's number is simply missing from the results.) -/
theorem C4_teorema :
    (∀ (bs : ℕ → ParteComportamento) (s : MindmapState),
        1 ≤ s.max_tentativas →
        (∀ i, ∃ ora, bs i = ParteComportamento.roda ora) →
        ∃ s2, processar_partes_paralelo bs s = some s2 ∧
          numerosDe s2.partes_processadas =
            List.range' 1 s.divisoes.length) ∧
    (∀ (trace : List PassoIn) (filename ramo topico fund : String)
        (divisoes : List Divisao) (maxT : ℕ),
        0 < divisoes.length →
        (rodarSeq trace (estadoAposDivisao filename ramo topico fund
          divisoes maxT)).2 = some Rota.salvar →
        numerosDe (rodarSeq trace (estadoAposDivisao filename ramo topico
          fund divisoes maxT)).1.partes_processadas =
          List.range' 1 divisoes.length) := by
  constructor
  · intro bs s hmax hok
    exact paralelo_numeros bs s hmax hok
  · intro trace filename ramo topico fund divisoes maxT h0 hfim
    exact (rodarSeq_salvar trace _
      (invariante_inicial filename ramo topico fund divisoes maxT h0)
      hfim).1

/-- Witness for C4: both modes on the two-part document — the parallel
run with every task approving first time, and the sequential run that
approves both parts and exits through the save route. -/
theorem C4_testemunha :
    (1 ≤ estadoDuasPartes.max_tentativas ∧
      ∃ s2, processar_partes_paralelo
          (fun _ => ParteComportamento.roda oraSempreAprova)
          estadoDuasPartes = some s2 ∧
        numerosDe s2.partes_processadas =
          List.range' 1 estadoDuasPartes.divisoes.length) ∧
    ((rodarSeq [passoAprova, passoAprova] (estadoAposDivisao "doc.html"
        "ramo" "topico" "fund" [divisaoA, divisaoB] 1)).2 =
        some Rota.salvar ∧
      numerosDe (rodarSeq [passoAprova, passoAprova]
          (estadoAposDivisao "doc.html" "ramo" "topico" "fund"
            [divisaoA, divisaoB] 1)).1.partes_processadas =
        List.range' 1 ([divisaoA, divisaoB] : List Divisao).length) := by
  constructor
  · exact ⟨by decide, C4_teorema.1 _ estadoDuasPartes (by decide)
      (fun _ => ⟨oraSempreAprova, rfl⟩)⟩
  · exact ⟨by decide, C4_teorema.2 [passoAprova, passoAprova] "doc.html"
      "ramo" "topico" "fund" [divisaoA, divisaoB] 1 (by decide) (by decide)⟩

/-- Counterexample to claim C4 as stated: in parallel mode, when the
task of part 1 raises before its retry loop (e.g. in `get_llm`), the run
still completes with a result list, but the collected part numbers are
`[2]`, not `1..2` — the raised part is missing entirely. -/
theorem C4_contra :
    ¬ (∀ (bs : ℕ → ParteComportamento) (s s2 : MindmapState),
        processar_partes_paralelo bs s = some s2 →
        numerosDe s2.partes_processadas =
          List.range' 1 s.divisoes.length) := by
  intro hall
  have hsal : processar_partes_paralelo comportamentoC4 estadoDuasPartes =
      some (agregaResultados
        [TarefaSaida.excecao "boom",
         TarefaSaida.resultado
           (resultadoAprovado 2 "Parte B" "mapa" 1 avaliacaoAprova)]
        estadoDuasPartes) := rfl
  have hnum := hall comportamentoC4 estadoDuasPartes _ hsal
  have hval : numerosDe (agregaResultados
      [TarefaSaida.excecao "boom",
       TarefaSaida.resultado
         (resultadoAprovado 2 "Parte B" "mapa" 1 avaliacaoAprova)]
      estadoDuasPartes).partes_processadas = [2] := by
    show numerosDe
      ([(resultadoAprovado 2 "Parte B" "mapa" 1
          avaliacaoAprova).paraParte].mergeSort fun a b =>
        decide (a.parte_numero ≤ b.parte_numero)) = [2]
    rw [List.mergeSort_singleton]
    rfl
  rw [hval] at hnum
  exact absurd hnum (by decide)

/-- Counterexample to claim C1 as stated: in the sequential machine with
`max_tentativas = 1`, two rejected passes make the generator node run
twice for part 1 — the per-part generation count exceeds the attempt
bound (the node counts attempts from 0, so a part receives up to
`max_tentativas + 1` generation calls). -/
theorem C1_contra :
    ¬ (∀ (trace : List PassoIn) (filename ramo topico fund : String)
        (divisoes : List Divisao) (maxT : ℕ) (i : ℤ),
        contaChamadas trace
          (estadoAposDivisao filename ramo topico fund divisoes maxT) i ≤
          maxT) := by
  intro hall
  have h := hall [passoRejeita, passoRejeita2] "doc.html" "ramo" "topico"
    "fund" [divisaoA, divisaoB] 1 0
  exact absurd h (by decide)

/-- Counterexample to claim C2 as stated: a one-part document whose only
task raises inside the retry loop on its final attempt returns a result
dict with `aprovado = false`, yet no exception escapes to `gather`, so
the aggregated document status is `concluido`, not `parcial`. -/
theorem C2_contra :
    ¬ (∀ (bs : ℕ → ParteComportamento) (s s2 : MindmapState),
        processar_partes_paralelo bs s = some s2 →
        s2.status = Status.concluido →
        ∀ p ∈ s2.partes_processadas, p.aprovado = some true) := by
  intro hall
  have hsal : processar_partes_paralelo
      (fun _ => ParteComportamento.roda oraSempreExcecao) estadoUmaParte =
      some (agregaResultados
        [TarefaSaida.resultado
          (resultadoErro 1 "Parte A" 1 "falha de servico")]
        estadoUmaParte) := rfl
  have hall2 := hall _ estadoUmaParte _ hsal (by decide)
  have hparts : (agregaResultados
      [TarefaSaida.resultado
        (resultadoErro 1 "Parte A" 1 "falha de servico")]
      estadoUmaParte).partes_processadas =
      [(resultadoErro 1 "Parte A" 1 "falha de servico").paraParte] := by
    show ([(resultadoErro 1 "Parte A" 1
        "falha de servico").paraParte].mergeSort fun a b =>
      decide (a.parte_numero ≤ b.parte_numero)) = _
    exact List.mergeSort_singleton _
  have hpa := hall2
    ((resultadoErro 1 "Parte A" 1 "falha de servico").paraParte)
    (by rw [hparts]; exact List.mem_cons_self _ _)
  exact absurd hpa (by decide)

/-- Counterexample to claim C7 as stated: in the sequential reviewer
node, a reviewer failure on a non-final attempt (attempt 1 of 3, in the
reachable state `estadoC7`) does not feed the retry policy — it
immediately auto-approves the pending part. -/
theorem C7_contra :
    ¬ (∀ (s : MindmapState) (m : String),
        s.tentativas_revisao < s.max_tentativas →
        ∀ u, s.partes_processadas.getLast? = some u →
          u.aprovado ≠ some true →
          ∀ u2, (revisar_mindmap_node (RevOutcome.exc m)
              s).partes_processadas.getLast? = some u2 →
            u2.aprovado ≠ some true) := by
  intro hall
  cases hu : estadoC7.partes_processadas.getLast? with
  | none => exact absurd hu (by decide)
  | some u =>
    have hua : u.aprovado = some false := by
      have hproj : (estadoC7.partes_processadas.getLast?).map
          (fun q => q.aprovado) = some (some false) := by decide
      rw [hu] at hproj
      exact Option.some.inj hproj
    cases hu2 : (revisar_mindmap_node (RevOutcome.exc "falha")
        estadoC7).partes_processadas.getLast? with
    | none => exact absurd hu2 (by decide)
    | some u2 =>
      have hu2a : u2.aprovado = some true := by
        have hproj : ((revisar_mindmap_node (RevOutcome.exc "falha")
            estadoC7).partes_processadas.getLast?).map
            (fun q => q.aprovado) = some (some true) := by decide
        rw [hu2] at hproj
        exact Option.some.inj hproj
      exact hall estadoC7 "falha" (by decide) u hu
        (by rw [hua]; decide) u2 hu2 hu2a

/-- Counterexample to claim C8 as stated: the pydantic-valid splitter
response `respostaDivisaoX` (part numbers 5 and 9) passes every check of
`dividir_conteudo_node`, so the emitted division numbers are `[5, 9]`,
not the positional sequence `1..2`. -/
theorem C8_contra :
    ¬ (∀ (d : DivisaoConteudo) (s : MindmapState),
        (dividir_conteudo_node (some d) s).status ≠ Status.erro →
        ((dividir_conteudo_node (some d) s).divisoes.map fun v =>
          v.numero) = List.range' 1
            (dividir_conteudo_node (some d) s).divisoes.length) := by
  intro hall
  have h := hall respostaDivisaoX (estadoInicial "doc.html" 3) (by decide)
  exact absurd h (by decide)
